import Mathlib

/-!
Verification development for the WPS PIN search engine of ExWiFi
(src/ErrorX.py): a shallow embedding of the PIN generator with checksum,
the MAC address codec, the protocol-event classifier and the two-phase
bruteforce engine, together with theorems settling the specification's
claims about them.

Python strings are modelled as Lean `String`/`List Char`; Python integers
as `Nat` (all integers involved are non-negative); fallible operations
return `Option`/`Except`.  Loops whose termination depends on runtime
data carry an explicit fuel argument; a `none` result means the fuel ran
out, which models a non-terminating run of the Python code.
-/

/-- Little-endian base-`b` digits of `n`, with explicit fuel so that the
definition is structurally recursive.  With fuel at least `n` this is the
usual digit expansion (see `digitsLEAux_eq_digits`). -/
def digitsLEAux (b : Nat) : Nat → Nat → List Nat
  | 0, _ => []
  | fuel + 1, n => if n = 0 then [] else n % b :: digitsLEAux b fuel (n / b)

theorem digitsLEAux_eq_digits (b : Nat) (hb : 2 ≤ b) :
    ∀ fuel n, n ≤ fuel → digitsLEAux b fuel n = Nat.digits b n := by
  intro fuel
  induction fuel with
  | zero =>
    intro n hn
    have : n = 0 := by omega
    subst this
    simp [digitsLEAux]
  | succ f ih =>
    intro n hn
    by_cases h0 : n = 0
    · subst h0; simp [digitsLEAux]
    · have hdiv : n / b < n := Nat.div_lt_self (Nat.pos_of_ne_zero h0) (by omega)
      rw [show digitsLEAux b (f + 1) n
            = (if n = 0 then [] else n % b :: digitsLEAux b f (n / b)) from rfl]
      simp only [h0, if_false]
      rw [ih (n / b) (by omega), Nat.digits_def' (by omega) (Nat.pos_of_ne_zero h0)]

/-- The decimal rendering of a natural number, as Python's str() produces
it. -/
def natStr (n : Nat) : String :=
  if n = 0 then "0"
  else String.mk (((digitsLEAux 10 n n).reverse).map Nat.digitChar)

theorem natStr_toList (n : Nat) (h0 : n ≠ 0) :
    (natStr n).toList = ((Nat.digits 10 n).reverse).map Nat.digitChar := by
  unfold natStr
  simp only [h0, if_false]
  rw [digitsLEAux_eq_digits 10 (by omega) n n le_rfl]
  rfl

/-- Python's int() applied to a string of decimal digits.  The bruteforce
engine only ever applies int() to strings it has itself produced with
str()/zfill(), which consist of decimal digits, so the embedding simply
folds the digit values. -/
def strToNatD (s : String) : Nat :=
  s.toList.foldl (fun a c => a * 10 + (c.toNat - 48)) 0

/-- Python str.zfill on an unsigned numeric string: left-pad with '0' to
width `w`. -/
def zfillS (w : Nat) (s : String) : String :=
  String.mk (List.replicate (w - s.toList.length) '0' ++ s.toList)

/-- The loop of EnhancedWPSpin.checksum, with fuel: each iteration
consumes the units digit (weight 3) and the tens digit (weight 1) of the
remaining pin, exactly as the Python while loop does. -/
def checksumAux : Nat → Nat → Nat → Nat
  | 0, _, acc => acc
  | fuel + 1, pin, acc =>
    if pin = 0 then acc
    else checksumAux fuel (pin / 10 / 10) (acc + 3 * (pin % 10) + pin / 10 % 10)

/-- EnhancedWPSpin.checksum: the standard WPS checksum digit. -/
def checksum (pin : Nat) : Nat :=
  (10 - checksumAux pin pin 0 % 10) % 10

/-- The checksum accumulator without fuel, for reasoning. -/
def csSum (pin : Nat) : Nat :=
  if h : pin = 0 then 0
  else 3 * (pin % 10) + pin / 10 % 10 + csSum (pin / 10 / 10)
decreasing_by
  have h2 : pin / 10 < pin := Nat.div_lt_self (Nat.pos_of_ne_zero h) (by omega)
  omega

theorem csSum_zero : csSum 0 = 0 := by
  rw [csSum]
  simp

theorem csSum_step (pin : Nat) :
    csSum pin = 3 * (pin % 10) + pin / 10 % 10 + csSum (pin / 10 / 10) := by
  by_cases h : pin = 0
  · subst h; simp [csSum_zero]
  · rw [csSum]; simp only [h, dite_false]

theorem checksumAux_eq_csSum :
    ∀ fuel pin acc, pin ≤ fuel → checksumAux fuel pin acc = acc + csSum pin := by
  intro fuel
  induction fuel with
  | zero =>
    intro pin acc h
    have : pin = 0 := by omega
    subst this
    simp [checksumAux, csSum_zero]
  | succ f ih =>
    intro pin acc h
    by_cases h0 : pin = 0
    · subst h0; simp [checksumAux, csSum_zero]
    · rw [show checksumAux (f + 1) pin acc
            = (if pin = 0 then acc
               else checksumAux f (pin / 10 / 10) (acc + 3 * (pin % 10) + pin / 10 % 10))
          from rfl]
      simp only [h0, if_false]
      have h2 : pin / 10 < pin := Nat.div_lt_self (Nat.pos_of_ne_zero h0) (by omega)
      rw [ih (pin / 10 / 10) _ (by omega), csSum_step pin]
      omega

theorem checksum_eq_csSum (pin : Nat) :
    checksum pin = (10 - csSum pin % 10) % 10 := by
  unfold checksum
  rw [checksumAux_eq_csSum pin pin 0 le_rfl, Nat.zero_add]

theorem checksum_lt_ten (pin : Nat) : checksum pin < 10 :=
  Nat.mod_lt _ (by omega)

/-- The WPS checksum exactly as the specification words it for a 7-digit
pin: three times each units digit plus each tens digit, across the digit
pairs, then the tens' complement of the sum modulo ten. -/
def wpsChecksumSpec (p : Nat) : Nat :=
  (10 - (3 * (p % 10) + p / 10 % 10 + 3 * (p / 100 % 10) + p / 1000 % 10
      + 3 * (p / 10000 % 10) + p / 100000 % 10 + 3 * (p / 1000000 % 10)) % 10) % 10

theorem csSum_eq_spec (p : Nat) (hp : p < 10000000) :
    csSum p = 3 * (p % 10) + p / 10 % 10 + 3 * (p / 100 % 10) + p / 1000 % 10
      + 3 * (p / 10000 % 10) + p / 100000 % 10 + 3 * (p / 1000000 % 10) := by
  have e1 : p / 10 / 10 = p / 100 := by
    rw [Nat.div_div_eq_div_mul]
  have e2 : p / 100 / 10 / 10 = p / 10000 := by
    rw [Nat.div_div_eq_div_mul, Nat.div_div_eq_div_mul]
  have e3 : p / 10000 / 10 / 10 = p / 1000000 := by
    rw [Nat.div_div_eq_div_mul, Nat.div_div_eq_div_mul]
  have e4 : p / 1000000 / 10 / 10 = 0 := by omega
  have e5 : p / 100 / 10 = p / 1000 := by
    rw [Nat.div_div_eq_div_mul]
  have e6 : p / 10000 / 10 = p / 100000 := by
    rw [Nat.div_div_eq_div_mul]
  have e7 : p / 1000000 / 10 = 0 := by omega
  rw [csSum_step p, e1, csSum_step (p / 100), e2, e5, csSum_step (p / 10000), e3, e6,
    csSum_step (p / 1000000), e4, e7, csSum_zero]
  omega

theorem checksum_eq_spec (p : Nat) (hp : p < 10000000) :
    checksum p = wpsChecksumSpec p := by
  rw [checksum_eq_csSum, csSum_eq_spec p hp, wpsChecksumSpec]

/-- Folding digits of base `b` from an arbitrary accumulator shifts the
accumulator by the length. -/
theorem foldl_digits_eq_ofDigits (b : Nat) :
    ∀ (L : List Nat) (a : Nat),
      L.foldl (fun acc d => acc * b + d) a = a * b ^ L.length + Nat.ofDigits b L.reverse := by
  intro L
  induction L with
  | nil => intro a; simp [Nat.ofDigits_nil]
  | cons d t ih =>
    intro a
    rw [List.foldl_cons, ih (a * b + d), List.reverse_cons, Nat.ofDigits_append]
    simp [Nat.ofDigits_singleton]
    ring

/-- Folding the character rendering of a digit list with a digit-value
function that inverts the rendering is folding the digits themselves. -/
theorem foldl_map_digits (b : Nat) (v : Char → Nat) (w : Nat → Char)
    (hv : ∀ d, d < b → v (w d) = d) :
    ∀ (L : List Nat), (∀ d ∈ L, d < b) → ∀ a,
      (L.map w).foldl (fun acc c => acc * b + v c) a
        = L.foldl (fun acc d => acc * b + d) a := by
  intro L
  induction L with
  | nil => intro _ a; rfl
  | cons d t ih =>
    intro hd a
    rw [List.map_cons, List.foldl_cons, List.foldl_cons,
      hv d (hd d (List.mem_cons_self d t)),
      ih (fun x hx => hd x (List.mem_cons_of_mem d hx))]

theorem digitChar_val (d : Nat) (hd : d < 10) : (Nat.digitChar d).toNat - 48 = d := by
  interval_cases d <;> rfl

theorem strToNatD_natStr (n : Nat) : strToNatD (natStr n) = n := by
  by_cases h0 : n = 0
  · subst h0; rfl
  · unfold strToNatD
    rw [natStr_toList n h0,
      foldl_map_digits 10 (fun c => c.toNat - 48) Nat.digitChar digitChar_val
        ((Nat.digits 10 n).reverse)
        (fun d hd => Nat.digits_lt_base (by omega) (List.mem_reverse.mp hd)) 0,
      foldl_digits_eq_ofDigits, List.reverse_reverse, Nat.ofDigits_digits]
    simp

theorem toList_append (s t : String) : (s ++ t).toList = s.toList ++ t.toList := rfl

theorem toList_mk (l : List Char) : (String.mk l).toList = l := rfl

/-- Shifting the accumulator across a digit fold. -/
theorem foldl_acc_shift (b : Nat) (v : Char → Nat) :
    ∀ (l : List Char) (a : Nat),
      l.foldl (fun acc c => acc * b + v c) a
        = a * b ^ l.length + l.foldl (fun acc c => acc * b + v c) 0 := by
  intro l
  induction l with
  | nil => intro a; simp
  | cons c t ih =>
    intro a
    rw [List.foldl_cons, List.foldl_cons, ih (a * b + v c), ih (0 * b + v c)]
    simp [List.length_cons]
    ring

theorem strToNatD_append (s t : String) :
    strToNatD (s ++ t) = strToNatD s * 10 ^ t.toList.length + strToNatD t := by
  unfold strToNatD
  rw [toList_append, List.foldl_append, foldl_acc_shift 10 (fun c => c.toNat - 48)]

theorem foldl_zero_chars :
    ∀ k, (List.replicate k '0').foldl (fun a c => a * 10 + (c.toNat - 48)) 0 = 0 := by
  intro k
  induction k with
  | zero => rfl
  | succ m ih => rw [List.replicate_succ, List.foldl_cons]; simpa using ih

theorem strToNatD_zfillS (w : Nat) (s : String) : strToNatD (zfillS w s) = strToNatD s := by
  unfold strToNatD zfillS
  rw [toList_mk, List.foldl_append]
  have h := foldl_zero_chars (w - s.toList.length)
  rw [h]

theorem strToNatD_zfillS_natStr (w n : Nat) : strToNatD (zfillS w (natStr n)) = n := by
  rw [strToNatD_zfillS, strToNatD_natStr]

theorem zfillS_toList (w : Nat) (s : String) :
    (zfillS w s).toList = List.replicate (w - s.toList.length) '0' ++ s.toList := rfl

theorem zfillS_length (w : Nat) (s : String) (h : s.toList.length ≤ w) :
    (zfillS w s).toList.length = w := by
  rw [zfillS_toList, List.length_append, List.length_replicate]
  omega

theorem zfillS_of_ge (w : Nat) (s : String) (h : w ≤ s.toList.length) :
    zfillS w s = s := by
  unfold zfillS
  rw [show w - s.toList.length = 0 from by omega, List.replicate_zero, List.nil_append]
  cases s
  rfl

theorem natStr_length_le (n k : Nat) (hk : 1 ≤ k) (h : n < 10 ^ k) :
    (natStr n).toList.length ≤ k := by
  by_cases h0 : n = 0
  · subst h0
    simpa using hk
  · rw [natStr_toList n h0, List.length_map, List.length_reverse,
      Nat.digits_len 10 n (by omega) h0]
    have := Nat.log_lt_of_lt_pow h0 h
    omega

theorem natStr_length_eq (n k : Nat) (h1 : 10 ^ k ≤ n) (h2 : n < 10 ^ (k + 1)) :
    (natStr n).toList.length = k + 1 := by
  have h0 : n ≠ 0 := by
    have : 1 ≤ 10 ^ k := Nat.one_le_pow k 10 (by omega)
    omega
  rw [natStr_toList n h0, List.length_map, List.length_reverse,
    Nat.digits_len 10 n (by omega) h0, Nat.log_eq_of_pow_le_of_lt_pow h1 h2]

/-! ### NetworkAddress: the MAC address codec -/

/-- Characters accepted as hexadecimal digits by Python's int(s, 16). -/
def isHexAscii (c : Char) : Bool :=
  ('0' ≤ c && c ≤ '9') || ('a' ≤ c && c ≤ 'f') || ('A' ≤ c && c ≤ 'F')

/-- The value of a hexadecimal digit character (as Python int(c, 16)). -/
def hexVal (c : Char) : Nat :=
  if '0' ≤ c && c ≤ '9' then c.toNat - 48
  else if 'a' ≤ c && c ≤ 'f' then c.toNat - 87
  else if 'A' ≤ c && c ≤ 'F' then c.toNat - 55
  else 0

/-- Python int(s, 16) on a plain string of hexadecimal digits: fails
(raises ValueError) when the string is empty or contains any character
that is not a hexadecimal digit, e.g. a '-' or '.' delimiter. -/
def pyIntHex (l : List Char) : Option Nat :=
  if !l.isEmpty && l.all isHexAscii then
    some (l.foldl (fun a c => a * 16 + hexVal c) 0)
  else none

/-- The digits of hex(m) without the 0x prefix, uppercased, mirroring
hex(mac).split('x')[-1].upper() in NetworkAddress._int2mac. -/
def hexCharsU (m : Nat) : List Char :=
  if m = 0 then ['0']
  else ((digitsLEAux 16 m m).reverse).map (fun d => (Nat.digitChar d).toUpper)

/-- ':'.join of character groups. -/
def joinColon : List (List Char) → List Char
  | [] => []
  | [g] => g
  | g :: gs => g ++ ':' :: joinColon gs

/-- The six two-character slices mac[i:i+2], i = 0,2,...,10, taken from
the zfill(12)-padded hex rendering, as NetworkAddress._int2mac builds
them.  For integers of 13 hex digits the 13th digit is never sliced. -/
def macGroups (m : Nat) : List (List Char) :=
  (List.range 6).map (fun i =>
    (((List.replicate (12 - (hexCharsU m).length) '0' ++ hexCharsU m).drop (2 * i)).take 2))

/-- NetworkAddress._int2mac. -/
def int2mac (m : Nat) : String :=
  String.mk (joinColon (macGroups m))

/-- NetworkAddress._mac2int: int(mac.replace(':', ''), 16).  Only ':'
characters are stripped; any other delimiter reaches int() and makes it
raise (None here). -/
def mac2int (mac : String) : Option Nat :=
  pyIntHex (mac.toList.filter (fun c => c ≠ ':'))

/-- The normalization done first by NetworkAddress.__init__ on a string:
replace '-' and '.' by ':', then uppercase. -/
def normalizeMac (s : String) : String :=
  String.mk ((s.toList.map (fun c => if c = '-' then ':' else if c = '.' then ':' else c)).map
    Char.toUpper)

/-- The regex of NetworkAddress._is_valid_mac,
([0-9A-Fa-f]\x7b2\x7d[:-])five times followed by two hex digits, spelled
out on the 17 characters. -/
def validMacFormat : List Char → Bool
  | [a1, a2, s1, b1, b2, s2, c1, c2, s3, d1, d2, s4, e1, e2, s5, f1, f2] =>
    isHexAscii a1 && isHexAscii a2 && (s1 = ':' || s1 = '-') &&
    isHexAscii b1 && isHexAscii b2 && (s2 = ':' || s2 = '-') &&
    isHexAscii c1 && isHexAscii c2 && (s3 = ':' || s3 = '-') &&
    isHexAscii d1 && isHexAscii d2 && (s4 = ':' || s4 = '-') &&
    isHexAscii e1 && isHexAscii e2 && (s5 = ':' || s5 = '-') &&
    isHexAscii f1 && isHexAscii f2
  | _ => false

/-- A MAC address as NetworkAddress holds it: integer and string forms. -/
structure NetAddr where
  integer : Nat
  string : String
deriving DecidableEq

inductive AddrError
  | invalidFormat
  | intConversionError
deriving DecidableEq

/-- NetworkAddress.__init__ on an integer. -/
def netAddrOfInt (m : Nat) : NetAddr :=
  { integer := m, string := int2mac m }

/-- NetworkAddress.__init__ on a string: normalize, validate the
normalized form, then convert the RAW input with _mac2int (the raw input
still holds any '-' or '.' delimiters, which int() rejects). -/
def netAddrOfString (mac : String) : Except AddrError NetAddr :=
  let str := normalizeMac mac
  if validMacFormat str.toList then
    match mac2int mac with
    | some n => Except.ok { integer := n, string := str }
    | none => Except.error AddrError.intConversionError
  else
    Except.error AddrError.invalidFormat

/-! ### EnhancedWPSpin: the PIN algorithm registry and generator -/

inductive AlgoMode
  | mac
  | empty
  | static
deriving DecidableEq

structure AlgoEntry where
  name : String
  mode : AlgoMode
  gen : Nat → Nat

def pin24 (m : Nat) : Nat := m &&& 0xFFFFFF

def pin28 (m : Nat) : Nat := m &&& 0xFFFFFFF

def pin32 (m : Nat) : Nat := m % 0x100000000

/-- EnhancedWPSpin.pinDLink.  Note int(10e6) = 10000000 and
int(10e5) = 1000000 in the Python source. -/
def pinDLink (m : Nat) : Nat :=
  let nic := m &&& 0xFFFFFF
  let p1 := nic ^^^ 0x55AA55
  let p2 := p1 ^^^ (((p1 &&& 0xF) <<< 4) + ((p1 &&& 0xF) <<< 8) + ((p1 &&& 0xF) <<< 12)
      + ((p1 &&& 0xF) <<< 16) + ((p1 &&& 0xF) <<< 20))
  let p3 := p2 % 10000000
  if p3 < 1000000 then p3 + (p3 % 9) * 1000000 + 1000000 else p3

/-- EnhancedWPSpin.pinDLink1: increments the address (mac.integer += 1
resynchronizes the string form) and applies pinDLink. -/
def pinDLink1 (m : Nat) : Nat := pinDLink (m + 1)

/-- The octet values obtained from mac.string.split(':'), as pinASUS and
pinAirocon read them: each colon-separated group of the string form,
hex-parsed. -/
def bOct (m : Nat) : List Nat :=
  (macGroups m).map (fun g => g.foldl (fun a c => a * 16 + hexVal c) 0)

/-- EnhancedWPSpin.pinASUS: builds seven decimal digits by modular sums
of octets; the Python code concatenates the digit characters and parses
them back, which is the base-10 fold of the digits. -/
def pinASUS (m : Nat) : Nat :=
  let b := bOct m
  let bg := fun i => b.getD i 0
  (List.range 7).foldl
    (fun acc i =>
      acc * 10 + (bg (i % 6) + bg 5) % (10 - (i + bg 1 + bg 2 + bg 3 + bg 4 + bg 5) % 7)) 0

/-- EnhancedWPSpin.pinAirocon. -/
def pinAirocon (m : Nat) : Nat :=
  let b := bOct m
  let bg := fun i => b.getD i 0
  (bg 0 + bg 1) % 10 + ((bg 5 + bg 0) % 10) * 10 + ((bg 4 + bg 5) % 10) * 100
    + ((bg 3 + bg 4) % 10) * 1000 + ((bg 2 + bg 3) % 10) * 10000
    + ((bg 1 + bg 2) % 10) * 100000 + ((bg 0 + bg 1) % 10) * 1000000

/-- The algorithm registry of EnhancedWPSpin.__init__.  The pinEmpty
entry returns the empty string in Python; generate special-cases it
before any numeric use, so its numeric gen component is never used. -/
def algos : List (String × AlgoEntry) :=
  [("pin24", ⟨"24-bit PIN", AlgoMode.mac, pin24⟩),
   ("pin28", ⟨"28-bit PIN", AlgoMode.mac, pin28⟩),
   ("pin32", ⟨"32-bit PIN", AlgoMode.mac, pin32⟩),
   ("pinDLink", ⟨"D-Link PIN", AlgoMode.mac, pinDLink⟩),
   ("pinDLink1", ⟨"D-Link PIN +1", AlgoMode.mac, pinDLink1⟩),
   ("pinASUS", ⟨"ASUS PIN", AlgoMode.mac, pinASUS⟩),
   ("pinAirocon", ⟨"Airocon Realtek", AlgoMode.mac, pinAirocon⟩),
   ("pinEmpty", ⟨"Empty PIN", AlgoMode.empty, fun _ => 0⟩),
   ("pinCisco", ⟨"Cisco", AlgoMode.static, fun _ => 1234567⟩),
   ("pinBrcm1", ⟨"Broadcom 1", AlgoMode.static, fun _ => 2017252⟩),
   ("pinBrcm2", ⟨"Broadcom 2", AlgoMode.static, fun _ => 4626484⟩),
   ("pinBrcm3", ⟨"Broadcom 3", AlgoMode.static, fun _ => 7622990⟩),
   ("pinBrcm4", ⟨"Broadcom 4", AlgoMode.static, fun _ => 6232714⟩),
   ("pinBrcm5", ⟨"Broadcom 5", AlgoMode.static, fun _ => 1086411⟩),
   ("pinBrcm6", ⟨"Broadcom 6", AlgoMode.static, fun _ => 3195719⟩),
   ("pinAirc1", ⟨"Airocon 1", AlgoMode.static, fun _ => 3043203⟩),
   ("pinAirc2", ⟨"Airocon 2", AlgoMode.static, fun _ => 7141225⟩),
   ("pinDSL2740R", ⟨"DSL-2740R", AlgoMode.static, fun _ => 6817554⟩),
   ("pinRealtek1", ⟨"Realtek 1", AlgoMode.static, fun _ => 9566146⟩),
   ("pinRealtek2", ⟨"Realtek 2", AlgoMode.static, fun _ => 9571911⟩),
   ("pinRealtek3", ⟨"Realtek 3", AlgoMode.static, fun _ => 4856371⟩),
   ("pinUpvel", ⟨"Upvel", AlgoMode.static, fun _ => 2085483⟩),
   ("pinUR814AC", ⟨"UR-814AC", AlgoMode.static, fun _ => 4397768⟩),
   ("pinUR825AC", ⟨"UR-825AC", AlgoMode.static, fun _ => 529417⟩),
   ("pinOnlime", ⟨"Onlime", AlgoMode.static, fun _ => 9995604⟩),
   ("pinEdimax", ⟨"Edimax", AlgoMode.static, fun _ => 3561153⟩),
   ("pinThomson", ⟨"Thomson", AlgoMode.static, fun _ => 6795814⟩),
   ("pinHG532x", ⟨"HG532x", AlgoMode.static, fun _ => 3425928⟩),
   ("pinH108L", ⟨"H108L", AlgoMode.static, fun _ => 9422988⟩),
   ("pinONO", ⟨"CBN ONO", AlgoMode.static, fun _ => 9575521⟩)]

def findAlgo (algo : String) : Option AlgoEntry :=
  algos.lookup algo

inductive GenError
  | unknownAlgorithm
deriving DecidableEq

/-- The try-block body of EnhancedWPSpin.generate, over the integer form
of the MAC (a NetworkAddress built from an integer always succeeds): an
unregistered id raises ValueError (UnknownAlgorithm); otherwise the raw
value is reduced modulo 10^7, the checksum digit is appended and the
result is zero-padded to 8 characters.  pinEmpty returns the empty
string before any of that. -/
def generateE (algo : String) (mac : Nat) : Except GenError String :=
  match findAlgo algo with
  | none => Except.error GenError.unknownAlgorithm
  | some e =>
    if algo = "pinEmpty" then Except.ok ""
    else
      let pin := e.gen mac % 10000000
      Except.ok (zfillS 8 (natStr pin ++ natStr (checksum pin)))

/-- EnhancedWPSpin.generate: the except clause turns any raised error
into None. -/
def generate (algo : String) (mac : Nat) : Option String :=
  (generateE algo mac).toOption

/-! ### String scanning helpers used by the classifier -/

/-- Does `pat` occur as a contiguous substring of `l` (Python's in)? -/
def containsL (pat : List Char) : List Char → Bool
  | [] => pat.isEmpty
  | c :: rest => pat.isPrefixOf (c :: rest) || containsL pat rest

/-- Python str.split(sep, maxsplit), on non-empty sep, with fuel. -/
def splitOnMaxAux (pat : List Char) : Nat → Nat → List Char → List Char → List (List Char)
  | 0, _, l, cur => [cur.reverse ++ l]
  | fuel + 1, maxsp, l, cur =>
    match l with
    | [] => [cur.reverse]
    | c :: rest =>
      if decide (0 < maxsp) && pat.isPrefixOf (c :: rest) then
        cur.reverse :: splitOnMaxAux pat fuel (maxsp - 1) (List.drop pat.length (c :: rest)) []
      else
        splitOnMaxAux pat fuel maxsp rest (c :: cur)

def splitOnMax (pat l : List Char) (maxsp : Nat) : List (List Char) :=
  splitOnMaxAux pat (l.length + 1) maxsp l []

/-- Python str.split(sep) without maxsplit. -/
def splitOnL (pat l : List Char) : List (List Char) :=
  splitOnMax pat l (l.length + 1)

/-- Element 1 of a split, i.e. what follows the first occurrence of the
separator up to its next occurrence. -/
def afterSplitIdx1 (pat l : List Char) : List Char :=
  (splitOnL pat l).getD 1 []

/-- sep.join of character groups. -/
def joinSep (sep : Char) : List (List Char) → List Char
  | [] => []
  | [g] => g
  | g :: gs => g ++ sep :: joinSep sep gs

/-- Python int() in base 10: optional surrounding spaces, then decimal
digits only; anything else raises (None here). -/
def pyIntDec (l : List Char) : Option Nat :=
  let t := ((l.dropWhile (fun c => c = ' ')).reverse.dropWhile (fun c => c = ' ')).reverse
  if !t.isEmpty && t.all (fun c => '0' ≤ c && c ≤ '9') then
    some (t.foldl (fun a c => a * 10 + (c.toNat - 48)) 0)
  else none

/-- get_hex: the third ':'-separated field of the line (split with
maxsplit 3), spaces removed and uppercased; the empty string when the
line has fewer than three fields. -/
def getHexL (l : List Char) : List Char :=
  let a := splitOnMax [':'] l 3
  if 3 ≤ a.length then ((a.getD 2 []).filter (fun c => c ≠ ' ')).map Char.toUpper
  else []

/-! ### ConnectionStatus, PixiewpsData and the wpa_supplicant line
classifier -/

/-- ConnectionStatus. -/
structure ConnStat where
  status : String
  last_m_message : Nat
  essid : String
  wpa_psk : String
deriving DecidableEq

def ConnStat.init : ConnStat :=
  { status := "", last_m_message := 0, essid := "", wpa_psk := "" }

/-- ConnectionStatus.isFirstHalfValid: last_m_message > 5. -/
def isFirstHalfValid (cs : ConnStat) : Bool :=
  decide (5 < cs.last_m_message)

/-- PixiewpsData: the six hex-encoded handshake parameters. -/
structure PixieData where
  pke : String
  pkr : String
  e_hash1 : String
  e_hash2 : String
  authkey : String
  e_nonce : String
deriving DecidableEq

def PixieData.init : PixieData :=
  { pke := "", pkr := "", e_hash1 := "", e_hash2 := "", authkey := "", e_nonce := "" }

/-- PixiewpsData.got_all: the conjunction of the truthiness ((non-empty)
of the six string fields, exactly as the Python and-chain evaluates. -/
def gotAll (px : PixieData) : Bool :=
  decide (px.pke ≠ "") && decide (px.pkr ≠ "") && decide (px.e_nonce ≠ "") &&
  decide (px.authkey ≠ "") && decide (px.e_hash1 ≠ "") && decide (px.e_hash2 ≠ "")

/-- Does a hex payload decode to exactly `k` bytes? -/
def decodesToBytes (s : String) (k : Nat) : Bool :=
  decide (s.toList.length = 2 * k) && s.toList.all isHexAscii

structure CompState where
  cs : ConnStat
  px : PixieData
deriving DecidableEq

def CompState.init : CompState :=
  { cs := ConnStat.init, px := PixieData.init }

/-- Stands for bytes.fromhex(v).decode('utf-8', errors='replace'): the
engine never inspects the passphrase beyond reporting it, so the byte
decoding is kept abstract and the hex payload itself is stored. -/
def pskDecode (v : String) : String := v

/-- Stands for the unicode-escape decoding round-trip applied to the
quoted network name; it is the identity on plain names and is kept
abstract. -/
def essidExtract (l : List Char) : String :=
  String.mk (joinSep '\'' (((splitOnL ['\''] l).drop 1).dropLast))

/-- One step of EnhancedCompanion.__handle_wpas on a trace line: the
elif chain in source order.  The Bool result is the handler's return
value: False means the attempt loop must stop (stream closed is handled
by the caller; here False arises from a raised exception, i.e. an assert
on a hex payload length or an unparsable integer, caught by the except
clause). Field assignments made before the raise are kept, as in Python. -/
def handleLine (iface : String) (st : CompState) (line : String) : Bool × CompState :=
  let l := line.toList
  if ("WPS: ".toList).isPrefixOf l then
    if containsL ("Building Message M".toList) l then
      match pyIntDec ((afterSplitIdx1 ("Building Message M".toList) l).filter
          (fun c => c ≠ 'D')) with
      | some n => (true, { st with cs := { st.cs with last_m_message := n } })
      | none => (false, st)
    else if containsL ("Received M".toList) l then
      match pyIntDec (afterSplitIdx1 ("Received M".toList) l) with
      | some n => (true, { st with cs := { st.cs with last_m_message := n } })
      | none => (false, st)
    else if containsL ("Received WSC_NACK".toList) l then
      (true, { st with cs := { st.cs with status := "WSC_NACK" } })
    else if containsL ("Enrollee Nonce".toList) l && containsL ("hexdump".toList) l then
      let v := String.mk (getHexL l)
      (decide (v.toList.length = 16 * 2), { st with px := { st.px with e_nonce := v } })
    else if containsL ("DH own Public Key".toList) l && containsL ("hexdump".toList) l then
      let v := String.mk (getHexL l)
      (decide (v.toList.length = 192 * 2), { st with px := { st.px with pkr := v } })
    else if containsL ("DH peer Public Key".toList) l && containsL ("hexdump".toList) l then
      let v := String.mk (getHexL l)
      (decide (v.toList.length = 192 * 2), { st with px := { st.px with pke := v } })
    else if containsL ("AuthKey".toList) l && containsL ("hexdump".toList) l then
      let v := String.mk (getHexL l)
      (decide (v.toList.length = 32 * 2), { st with px := { st.px with authkey := v } })
    else if containsL ("E-Hash1".toList) l && containsL ("hexdump".toList) l then
      let v := String.mk (getHexL l)
      (decide (v.toList.length = 32 * 2), { st with px := { st.px with e_hash1 := v } })
    else if containsL ("E-Hash2".toList) l && containsL ("hexdump".toList) l then
      let v := String.mk (getHexL l)
      (decide (v.toList.length = 32 * 2), { st with px := { st.px with e_hash2 := v } })
    else if containsL ("Network Key".toList) l && containsL ("hexdump".toList) l then
      let v := String.mk (getHexL l)
      let st' := { st with cs := { st.cs with status := "GOT_PSK" } }
      if v.toList.length % 2 = 0 && v.toList.all isHexAscii then
        (true, { st' with cs := { st'.cs with wpa_psk := pskDecode v } })
      else
        (false, st')
    else
      (true, st)
  else if containsL (": State: ".toList) l then
    if containsL ("-> SCANNING".toList) l then
      (true, { st with cs := { st.cs with status := "scanning" } })
    else
      (true, st)
  else if containsL ("WPS-FAIL".toList) l && decide (st.cs.status ≠ "") then
    (true, { st with cs := { st.cs with status := "WPS_FAIL" } })
  else if containsL ("Trying to authenticate with".toList) l then
    let st' := { st with cs := { st.cs with status := "authenticating" } }
    if containsL ("SSID".toList) l then
      (true, { st' with cs := { st'.cs with essid := essidExtract l } })
    else
      (true, st')
  else if containsL ("Authentication response".toList) l then
    (true, st)
  else if containsL ("Trying to associate with".toList) l then
    let st' := { st with cs := { st.cs with status := "associating" } }
    if containsL ("SSID".toList) l then
      (true, { st' with cs := { st'.cs with essid := essidExtract l } })
    else
      (true, st')
  else if containsL ("Associated with".toList) l && containsL iface.toList l then
    (true, st)
  else if containsL ("EAPOL: txStart".toList) l then
    (true, { st with cs := { st.cs with status := "eapol_start" } })
  else
    (true, st)

/-- A status on which the attempt loop of __wps_connection stops. -/
def terminalStatus (s : String) : Bool :=
  s = "WSC_NACK" || s = "GOT_PSK" || s = "WPS_FAIL"

/-- The pump loop of EnhancedCompanion.__wps_connection: feed trace
lines to the handler until it returns False, the stream ends, or the
status becomes terminal. -/
def pumpLoop (iface : String) : List String → CompState → CompState
  | [], st => st
  | line :: rest, st =>
    let r := handleLine iface st line
    if !r.1 then r.2
    else if terminalStatus r.2.cs.status then r.2
    else pumpLoop iface rest r.2

/-- One attempt's classification run from cleared state (the accumulator
and status are reset at the start of every attempt). -/
def wpsConnectionRun (iface : String) (trace : List String) : CompState :=
  pumpLoop iface trace CompState.init

/-! ### The two-phase bruteforce engine

single_connection is modelled by an oracle mapping the global attempt
index and the submitted PIN to the ConnectionStatus left behind by the
attempt (the simulated control channel of the testable properties); the
loops thread the attempt index, the attempt log, the current
BruteforceStatus mask and the list of masks passed to registerAttempt. -/

/-- The full PIN submitted by phase 1 for a first-half candidate:
f_half + "000" + checksum(int(f_half + "000")). -/
def fhPinOf (f : String) : String :=
  f ++ "000" ++ natStr (checksum (strToNatD (f ++ "000")))

/-- The full PIN submitted by phase 2:
f_half + s_half + checksum(int(f_half + s_half)). -/
def shPinOf (f s : String) : String :=
  f ++ s ++ natStr (checksum (strToNatD (f ++ s)))

/-- The result of a phase-1 run: the returned value (the found f_half or
False), the final connection status, the final BruteforceStatus mask,
the log of (candidate, pin) per single_connection call, the masks passed
to registerAttempt, and the next global attempt index. -/
structure Phase1Out where
  result : Option String
  cs : ConnStat
  mask : String
  attempts : List (String × String)
  maskLog : List String
  nextIdx : Nat
deriving DecidableEq

/-- EnhancedCompanion.__first_half_bruteforce.  On WPS_FAIL the Python
code recurses with the same candidate (an unbounded retry); here that is
the fuel-consuming recursive call with `f` unchanged. -/
def firstHalfLoop (oracle : Nat → String → ConnStat) :
    Nat → String → String → ConnStat → Nat → List (String × String) → List String →
    Option Phase1Out
  | 0, _, _, _, _, _, _ => none
  | fuel + 1, f, mask, cs0, idx, log, ml =>
    if strToNatD f < 10000 then
      let pin := fhPinOf f
      let cs := oracle idx pin
      let log' := log ++ [(f, pin)]
      if 5 < cs.last_m_message then
        some { result := some f, cs := cs, mask := mask, attempts := log',
               maskLog := ml, nextIdx := idx + 1 }
      else if cs.status = "WPS_FAIL" then
        firstHalfLoop oracle fuel f mask cs (idx + 1) log' ml
      else
        let nf := zfillS 4 (natStr (strToNatD f + 1))
        firstHalfLoop oracle fuel nf nf cs (idx + 1) log' (ml ++ [nf])
    else
      some { result := none, cs := cs0, mask := mask, attempts := log,
             maskLog := ml, nextIdx := idx }

/-- The result of a phase-2 run; result holds the full PIN on success. -/
structure Phase2Out where
  result : Option String
  cs : ConnStat
  mask : String
  attempts : List (String × String)
  maskLog : List String
  nextIdx : Nat
deriving DecidableEq

/-- EnhancedCompanion.__second_half_bruteforce: success exactly when an
attempt ends with last_m_message > 6; WPS_FAIL retries the same
candidate (unbounded, as in phase 1). -/
def secondHalfLoop (oracle : Nat → String → ConnStat) :
    Nat → String → String → String → ConnStat → Nat → List (String × String) →
    List String → Option Phase2Out
  | 0, _, _, _, _, _, _, _ => none
  | fuel + 1, f, s, mask, cs0, idx, log, ml =>
    if strToNatD s < 1000 then
      let pin := shPinOf f s
      let cs := oracle idx pin
      let log' := log ++ [(s, pin)]
      if 6 < cs.last_m_message then
        some { result := some pin, cs := cs, mask := mask, attempts := log',
               maskLog := ml, nextIdx := idx + 1 }
      else if cs.status = "WPS_FAIL" then
        secondHalfLoop oracle fuel f s mask cs (idx + 1) log' ml
      else
        let ns := zfillS 3 (natStr (strToNatD s + 1))
        secondHalfLoop oracle fuel f ns (f ++ ns) cs (idx + 1) log' (ml ++ [f ++ ns])
    else
      some { result := none, cs := cs0, mask := mask, attempts := log,
             maskLog := ml, nextIdx := idx }

/-- The outcome of EnhancedCompanion.smart_bruteforce: the phase-1 run
(when one took place), the (f_half, s_half) pair phase 2 was entered
with, and the phase-2 run. -/
structure SmartOut where
  p1 : Option Phase1Out
  phase2Start : Option (String × String)
  p2 : Option Phase2Out
deriving DecidableEq

/-- EnhancedCompanion.smart_bruteforce on a restored or fresh mask: a
4-character mask runs phase 1 and, when that returns a first half and
the status is not GOT_PSK, phase 2 from second-half "001"; a 7-character
mask resumes phase 2 directly; any other mask length runs nothing. -/
def smartBruteforce (oracle : Nat → String → ConnStat) (fuel : Nat) (mask : String) :
    Option SmartOut :=
  if mask.toList.length = 4 then
    match firstHalfLoop oracle fuel mask mask ConnStat.init 0 [] [] with
    | none => none
    | some o1 =>
      match o1.result with
      | some fh =>
        if o1.cs.status ≠ "GOT_PSK" then
          match secondHalfLoop oracle fuel fh "001" o1.mask o1.cs o1.nextIdx [] [] with
          | none => none
          | some o2 => some { p1 := some o1, phase2Start := some (fh, "001"), p2 := some o2 }
        else
          some { p1 := some o1, phase2Start := none, p2 := none }
      | none => some { p1 := some o1, phase2Start := none, p2 := none }
  else if mask.toList.length = 7 then
    let fh := String.mk (mask.toList.take 4)
    let sh := String.mk (mask.toList.drop 4)
    match secondHalfLoop oracle fuel fh sh mask ConnStat.init 0 [] [] with
    | none => none
    | some o2 => some { p1 := none, phase2Start := some (fh, sh), p2 := some o2 }
  else
    some { p1 := none, phase2Start := none, p2 := none }

/-! ### Canonical candidate strings and run lemmas for the engine -/

/-- The canonical 4-digit rendering of a first-half candidate. -/
def z4 (n : Nat) : String := zfillS 4 (natStr n)

/-- The canonical 3-digit rendering of a second-half candidate. -/
def z3 (n : Nat) : String := zfillS 3 (natStr n)

/-- The phase-1 PIN for the canonical candidate n. -/
def fhPinC (n : Nat) : String := fhPinOf (z4 n)

/-- The phase-2 PIN for first half f and canonical second-half n. -/
def shPinC (f : String) (n : Nat) : String := shPinOf f (z3 n)

theorem strToNatD_z4 (n : Nat) : strToNatD (z4 n) = n := by
  unfold z4
  rw [strToNatD_zfillS_natStr]

theorem strToNatD_z3 (n : Nat) : strToNatD (z3 n) = n := by
  unfold z3
  rw [strToNatD_zfillS_natStr]

theorem z4_length (n : Nat) (h : n < 10000) : (z4 n).toList.length = 4 := by
  unfold z4
  exact zfillS_length 4 (natStr n) (natStr_length_le n 4 (by omega) (by norm_num; omega))

theorem z3_length (n : Nat) (h : n < 1000) : (z3 n).toList.length = 3 := by
  unfold z3
  exact zfillS_length 3 (natStr n) (natStr_length_le n 3 (by omega) (by norm_num; omega))

theorem firstHalfLoop_eq (oracle : Nat → String → ConnStat)
    (fuel : Nat) (f mask : String) (cs0 : ConnStat) (idx : Nat)
    (log : List (String × String)) (ml : List String) :
    firstHalfLoop oracle (fuel + 1) f mask cs0 idx log ml =
      (if strToNatD f < 10000 then
        if 5 < (oracle idx (fhPinOf f)).last_m_message then
          some { result := some f, cs := oracle idx (fhPinOf f), mask := mask,
                 attempts := log ++ [(f, fhPinOf f)], maskLog := ml, nextIdx := idx + 1 }
        else if (oracle idx (fhPinOf f)).status = "WPS_FAIL" then
          firstHalfLoop oracle fuel f mask (oracle idx (fhPinOf f)) (idx + 1)
            (log ++ [(f, fhPinOf f)]) ml
        else
          firstHalfLoop oracle fuel (zfillS 4 (natStr (strToNatD f + 1)))
            (zfillS 4 (natStr (strToNatD f + 1))) (oracle idx (fhPinOf f)) (idx + 1)
            (log ++ [(f, fhPinOf f)]) (ml ++ [zfillS 4 (natStr (strToNatD f + 1))])
      else
        some { result := none, cs := cs0, mask := mask, attempts := log,
               maskLog := ml, nextIdx := idx }) := rfl

theorem secondHalfLoop_eq (oracle : Nat → String → ConnStat)
    (fuel : Nat) (f s mask : String) (cs0 : ConnStat) (idx : Nat)
    (log : List (String × String)) (ml : List String) :
    secondHalfLoop oracle (fuel + 1) f s mask cs0 idx log ml =
      (if strToNatD s < 1000 then
        if 6 < (oracle idx (shPinOf f s)).last_m_message then
          some { result := some (shPinOf f s), cs := oracle idx (shPinOf f s), mask := mask,
                 attempts := log ++ [(s, shPinOf f s)], maskLog := ml, nextIdx := idx + 1 }
        else if (oracle idx (shPinOf f s)).status = "WPS_FAIL" then
          secondHalfLoop oracle fuel f s mask (oracle idx (shPinOf f s)) (idx + 1)
            (log ++ [(s, shPinOf f s)]) ml
        else
          secondHalfLoop oracle fuel f (zfillS 3 (natStr (strToNatD s + 1)))
            (f ++ zfillS 3 (natStr (strToNatD s + 1))) (oracle idx (shPinOf f s)) (idx + 1)
            (log ++ [(s, shPinOf f s)]) (ml ++ [f ++ zfillS 3 (natStr (strToNatD s + 1))])
      else
        some { result := none, cs := cs0, mask := mask, attempts := log,
               maskLog := ml, nextIdx := idx }) := rfl

/-- A clean phase-1 run: with an oracle that depends only on the pin,
answers below candidate k neither signal first-half validity nor
WPS_FAIL, and candidate k signals validity, the loop starting at
candidate n walks the candidates n..k in order. -/
theorem firstHalf_run_success (O : String → ConnStat) (k : Nat) (hk : k < 10000)
    (hclean : ∀ m, m < k →
      (O (fhPinC m)).last_m_message ≤ 5 ∧ (O (fhPinC m)).status ≠ "WPS_FAIL")
    (hvalid : 5 < (O (fhPinC k)).last_m_message) :
    ∀ fuel n, n ≤ k → k - n < fuel → ∀ (mask0 : String) (cs0 : ConnStat) (idx0 : Nat)
      (log0 : List (String × String)) (ml0 : List String),
      firstHalfLoop (fun _ pin => O pin) fuel (z4 n) mask0 cs0 idx0 log0 ml0 =
        some { result := some (z4 k), cs := O (fhPinC k),
               mask := if n = k then mask0 else z4 k,
               attempts := log0 ++ (List.range' n (k + 1 - n)).map (fun j => (z4 j, fhPinC j)),
               maskLog := ml0 ++ (List.range' (n + 1) (k - n)).map z4,
               nextIdx := idx0 + (k + 1 - n) } := by
  intro fuel
  induction fuel with
  | zero => intro n hn hf; omega
  | succ fl ih =>
    intro n hn hf mask0 cs0 idx0 log0 ml0
    rw [firstHalfLoop_eq]
    have hg : strToNatD (z4 n) < 10000 := by rw [strToNatD_z4]; omega
    rw [if_pos hg]
    have hpin : fhPinOf (z4 n) = fhPinC n := rfl
    by_cases hnk : n = k
    · subst hnk
      rw [hpin, if_pos hvalid]
      have h1 : n + 1 - n = 1 := by omega
      have h2 : n - n = 0 := by omega
      rw [if_pos rfl, h1, h2, List.range'_one, List.range'_zero, List.map_cons, List.map_nil,
        List.map_nil, List.append_nil]
    · have hcl := hclean n (by omega)
      rw [hpin, if_neg (by omega), if_neg hcl.2, strToNatD_z4]
      have hz : zfillS 4 (natStr (n + 1)) = z4 (n + 1) := rfl
      rw [hz, ih (n + 1) (by omega) (by omega) (z4 (n + 1)) (O (fhPinC n)) (idx0 + 1)
        (log0 ++ [(z4 n, fhPinC n)]) (ml0 ++ [z4 (n + 1)])]
      have hr1 : k + 1 - n = (k - n - 1) + 1 + 1 := by omega
      have hr2 : k - n = (k - n - 1) + 1 := by omega
      have hr3 : k + 1 - (n + 1) = (k - n - 1) + 1 := by omega
      have hmask : (if n + 1 = k then z4 (n + 1) else z4 k) = z4 k := by
        by_cases h : n + 1 = k
        · rw [if_pos h, h]
        · rw [if_neg h]
      rw [hmask, if_neg hnk]
      have hatt : (log0 ++ [(z4 n, fhPinC n)])
            ++ (List.range' (n + 1) (k + 1 - (n + 1))).map (fun j => (z4 j, fhPinC j))
          = log0 ++ (List.range' n (k + 1 - n)).map (fun j => (z4 j, fhPinC j)) := by
        rw [List.append_assoc, hr3, hr1]
        rw [List.range'_succ n ((k - n - 1) + 1) 1, List.map_cons, List.singleton_append]
      have hml : (ml0 ++ [z4 (n + 1)]) ++ (List.range' (n + 1 + 1) (k - (n + 1))).map z4
          = ml0 ++ (List.range' (n + 1) (k - n)).map z4 := by
        rw [List.append_assoc, hr2, show k - (n + 1) = k - n - 1 from by omega]
        rw [List.range'_succ (n + 1) (k - n - 1) 1, List.map_cons, List.singleton_append]
      have hidx : idx0 + 1 + (k + 1 - (n + 1)) = idx0 + (k + 1 - n) := by omega
      rw [hatt, hml, hidx]

/-- A clean phase-2 run ending in success: answers below second-half
candidate k stay at message number ≤ 6 without WPS_FAIL, and candidate k
answers with message number > 6; the loop walks candidates n..k and
returns the full PIN of candidate k. -/
theorem secondHalf_run_success (O : String → ConnStat) (f : String) (k : Nat) (hk : k < 1000)
    (hclean : ∀ m, m < k →
      (O (shPinC f m)).last_m_message ≤ 6 ∧ (O (shPinC f m)).status ≠ "WPS_FAIL")
    (hvalid : 6 < (O (shPinC f k)).last_m_message) :
    ∀ fuel n, n ≤ k → k - n < fuel → ∀ (mask0 : String) (cs0 : ConnStat) (idx0 : Nat)
      (log0 : List (String × String)) (ml0 : List String),
      secondHalfLoop (fun _ pin => O pin) fuel f (z3 n) mask0 cs0 idx0 log0 ml0 =
        some { result := some (shPinC f k), cs := O (shPinC f k),
               mask := if n = k then mask0 else f ++ z3 k,
               attempts := log0 ++ (List.range' n (k + 1 - n)).map (fun j => (z3 j, shPinC f j)),
               maskLog := ml0 ++ (List.range' (n + 1) (k - n)).map (fun j => f ++ z3 j),
               nextIdx := idx0 + (k + 1 - n) } := by
  intro fuel
  induction fuel with
  | zero => intro n hn hf; omega
  | succ fl ih =>
    intro n hn hf mask0 cs0 idx0 log0 ml0
    rw [secondHalfLoop_eq]
    have hg : strToNatD (z3 n) < 1000 := by rw [strToNatD_z3]; omega
    rw [if_pos hg]
    have hpin : shPinOf f (z3 n) = shPinC f n := rfl
    by_cases hnk : n = k
    · subst hnk
      rw [hpin, if_pos hvalid]
      have h1 : n + 1 - n = 1 := by omega
      have h2 : n - n = 0 := by omega
      rw [if_pos rfl, h1, h2, List.range'_one, List.range'_zero, List.map_cons, List.map_nil,
        List.map_nil, List.append_nil]
    · have hcl := hclean n (by omega)
      rw [hpin, if_neg (by omega), if_neg hcl.2, strToNatD_z3]
      have hz : zfillS 3 (natStr (n + 1)) = z3 (n + 1) := rfl
      rw [hz, ih (n + 1) (by omega) (by omega) (f ++ z3 (n + 1)) (O (shPinC f n)) (idx0 + 1)
        (log0 ++ [(z3 n, shPinC f n)]) (ml0 ++ [f ++ z3 (n + 1)])]
      have hr1 : k + 1 - n = (k - n - 1) + 1 + 1 := by omega
      have hr2 : k - n = (k - n - 1) + 1 := by omega
      have hr3 : k + 1 - (n + 1) = (k - n - 1) + 1 := by omega
      have hmask : (if n + 1 = k then f ++ z3 (n + 1) else f ++ z3 k) = f ++ z3 k := by
        by_cases h : n + 1 = k
        · rw [if_pos h, h]
        · rw [if_neg h]
      rw [hmask, if_neg hnk]
      have hatt : (log0 ++ [(z3 n, shPinC f n)])
            ++ (List.range' (n + 1) (k + 1 - (n + 1))).map (fun j => (z3 j, shPinC f j))
          = log0 ++ (List.range' n (k + 1 - n)).map (fun j => (z3 j, shPinC f j)) := by
        rw [List.append_assoc, hr3, hr1]
        rw [List.range'_succ n ((k - n - 1) + 1) 1, List.map_cons, List.singleton_append]
      have hml : (ml0 ++ [f ++ z3 (n + 1)])
            ++ (List.range' (n + 1 + 1) (k - (n + 1))).map (fun j => f ++ z3 j)
          = ml0 ++ (List.range' (n + 1) (k - n)).map (fun j => f ++ z3 j) := by
        rw [List.append_assoc, hr2, show k - (n + 1) = k - n - 1 from by omega]
        rw [List.range'_succ (n + 1) (k - n - 1) 1, List.map_cons, List.singleton_append]
      have hidx : idx0 + 1 + (k + 1 - (n + 1)) = idx0 + (k + 1 - n) := by omega
      rw [hatt, hml, hidx]

/-- A clean phase-2 run that exhausts the space: every candidate up to
999 answers with message number ≤ 6 and no WPS_FAIL, so the loop walks
all remaining candidates and returns False. -/
theorem secondHalf_run_exhaust (O : String → ConnStat) (f : String)
    (hclean : ∀ m, m < 1000 →
      (O (shPinC f m)).last_m_message ≤ 6 ∧ (O (shPinC f m)).status ≠ "WPS_FAIL") :
    ∀ fuel n, n ≤ 1000 → 1000 - n < fuel → ∀ (mask0 : String) (cs0 : ConnStat) (idx0 : Nat)
      (log0 : List (String × String)) (ml0 : List String),
      secondHalfLoop (fun _ pin => O pin) fuel f (z3 n) mask0 cs0 idx0 log0 ml0 =
        some { result := none,
               cs := if n = 1000 then cs0 else O (shPinC f 999),
               mask := if n = 1000 then mask0 else f ++ z3 1000,
               attempts := log0 ++ (List.range' n (1000 - n)).map (fun j => (z3 j, shPinC f j)),
               maskLog := ml0 ++ (List.range' (n + 1) (1000 - n)).map (fun j => f ++ z3 j),
               nextIdx := idx0 + (1000 - n) } := by
  intro fuel
  induction fuel with
  | zero => intro n hn hf; omega
  | succ fl ih =>
    intro n hn hf mask0 cs0 idx0 log0 ml0
    rw [secondHalfLoop_eq]
    by_cases hend : n = 1000
    · subst hend
      rw [if_neg (by rw [strToNatD_z3]; omega)]
      rw [if_pos rfl, if_pos rfl, show (1000 : Nat) - 1000 = 0 from by omega]
      simp
    · have hg : strToNatD (z3 n) < 1000 := by rw [strToNatD_z3]; omega
      rw [if_pos hg]
      have hpin : shPinOf f (z3 n) = shPinC f n := rfl
      have hcl := hclean n (by omega)
      rw [hpin, if_neg (by omega), if_neg hcl.2, strToNatD_z3]
      have hz : zfillS 3 (natStr (n + 1)) = z3 (n + 1) := rfl
      rw [hz, ih (n + 1) (by omega) (by omega) (f ++ z3 (n + 1)) (O (shPinC f n)) (idx0 + 1)
        (log0 ++ [(z3 n, shPinC f n)]) (ml0 ++ [f ++ z3 (n + 1)])]
      have hr1 : 1000 - n = (1000 - n - 1) + 1 := by omega
      have hr3 : 1000 - (n + 1) = 1000 - n - 1 := by omega
      have hcs : (if n + 1 = 1000 then O (shPinC f n) else O (shPinC f 999))
          = O (shPinC f 999) := by
        by_cases h : n + 1 = 1000
        · rw [if_pos h, show n = 999 from by omega]
        · rw [if_neg h]
      have hmask : (if n + 1 = 1000 then f ++ z3 (n + 1) else f ++ z3 1000)
          = f ++ z3 1000 := by
        by_cases h : n + 1 = 1000
        · rw [if_pos h, h]
        · rw [if_neg h]
      rw [hcs, hmask, if_neg hend, if_neg hend]
      have hatt : (log0 ++ [(z3 n, shPinC f n)])
            ++ (List.range' (n + 1) (1000 - (n + 1))).map (fun j => (z3 j, shPinC f j))
          = log0 ++ (List.range' n (1000 - n)).map (fun j => (z3 j, shPinC f j)) := by
        rw [List.append_assoc, hr3]
        conv_rhs => rw [hr1]
        rw [List.range'_succ n (1000 - n - 1) 1, List.map_cons, List.singleton_append]
      have hml : (ml0 ++ [f ++ z3 (n + 1)])
            ++ (List.range' (n + 1 + 1) (1000 - (n + 1))).map (fun j => f ++ z3 j)
          = ml0 ++ (List.range' (n + 1) (1000 - n)).map (fun j => f ++ z3 j) := by
        rw [List.append_assoc, hr3]
        conv_rhs => rw [hr1]
        rw [List.range'_succ (n + 1) (1000 - n - 1) 1, List.map_cons, List.singleton_append]
      have hidx : idx0 + 1 + (1000 - (n + 1)) = idx0 + (1000 - n) := by omega
      rw [hatt, hml, hidx]

/-! ### Facts about the hex rendering used by _int2mac and _mac2int -/

theorem upHexDigit_hexVal (d : Nat) (h : d < 16) :
    hexVal ((Nat.digitChar d).toUpper) = d := by
  interval_cases d <;> decide

theorem upHexDigit_isHex (d : Nat) (h : d < 16) :
    isHexAscii ((Nat.digitChar d).toUpper) = true := by
  interval_cases d <;> decide

theorem upHexDigit_ne_colon (d : Nat) (h : d < 16) :
    (Nat.digitChar d).toUpper ≠ ':' := by
  interval_cases d <;> decide

theorem hexCharsU_eq (m : Nat) (hm : m ≠ 0) :
    hexCharsU m = ((Nat.digits 16 m).reverse).map (fun d => (Nat.digitChar d).toUpper) := by
  unfold hexCharsU
  simp only [hm, if_false]
  rw [digitsLEAux_eq_digits 16 (by omega) m m le_rfl]

theorem hexCharsU_mem (m : Nat) (hm : m ≠ 0) (c : Char) (hc : c ∈ hexCharsU m) :
    isHexAscii c = true ∧ c ≠ ':' := by
  rw [hexCharsU_eq m hm] at hc
  obtain ⟨d, hd, rfl⟩ := List.mem_map.mp hc
  have hd16 : d < 16 := Nat.digits_lt_base (by omega) (List.mem_reverse.mp hd)
  exact ⟨upHexDigit_isHex d hd16, upHexDigit_ne_colon d hd16⟩

/-- Removing the ':' separators from a joined group list recovers the
concatenation of the groups, provided no group contains ':'. -/
theorem filter_joinColon (gs : List (List Char)) (h : ∀ g ∈ gs, ∀ c ∈ g, c ≠ ':') :
    (joinColon gs).filter (fun c => c ≠ ':') = gs.flatten := by
  induction gs with
  | nil => rfl
  | cons g gs ih =>
    cases gs with
    | nil =>
      show (joinColon [g]).filter (fun c => c ≠ ':') = [g].flatten
      rw [show joinColon [g] = g from rfl]
      rw [show ([g] : List (List Char)).flatten = g ++ [] from rfl, List.append_nil]
      exact List.filter_eq_self.mpr (fun c hc => by
        simpa using h g (List.mem_cons_self g []) c hc)
    | cons g' gs' =>
      rw [show joinColon (g :: g' :: gs') = g ++ ':' :: joinColon (g' :: gs') from rfl,
        List.filter_append]
      rw [show (':' :: joinColon (g' :: gs')).filter (fun c => c ≠ ':')
            = (joinColon (g' :: gs')).filter (fun c => c ≠ ':') from by
          rw [List.filter_cons]
          simp]
      rw [ih (fun g2 hg2 c hc => h g2 (List.mem_cons_of_mem g hg2) c hc)]
      rw [List.filter_eq_self.mpr (fun c hc => by
        simpa using h g (List.mem_cons_self g (g' :: gs')) c hc)]
      rw [show (g :: g' :: gs').flatten = g ++ (g' :: gs').flatten from rfl]

/-- Splitting the first twelve characters into the six two-character
slices that _int2mac takes. -/
theorem take_twelve_slices (l : List Char) :
    l.take 12 = l.take 2 ++ ((l.drop 2).take 2 ++ ((l.drop 4).take 2
      ++ ((l.drop 6).take 2 ++ ((l.drop 8).take 2 ++ ((l.drop 10).take 2 ++ []))))) := by
  rw [show (12 : Nat) = 2 + 10 from rfl, List.take_add l 2 10]
  rw [show (10 : Nat) = 2 + 8 from rfl, List.take_add (l.drop 2) 2 8]
  rw [show (8 : Nat) = 2 + 6 from rfl, List.take_add ((l.drop 2).drop 2) 2 6]
  rw [show (6 : Nat) = 2 + 4 from rfl, List.take_add (((l.drop 2).drop 2).drop 2) 2 4]
  rw [show (4 : Nat) = 2 + 2 from rfl, List.take_add ((((l.drop 2).drop 2).drop 2).drop 2) 2 2]
  rw [List.drop_drop, List.drop_drop, List.drop_drop, List.drop_drop]
  norm_num

/-- For an integer of 13 hexadecimal digits (the 48-bit overflow zone up
to 2^52), _int2mac slices only the first 12 of the 13 characters, so the
string form stores m / 16 and _mac2int parses it back accordingly. -/
theorem int2mac_top_twelve (m : Nat) (h1 : 2 ^ 48 ≤ m) (h2 : m < 2 ^ 52) :
    (hexCharsU m).length = 13 ∧
    (int2mac m).toList.filter (fun c => c ≠ ':') = (hexCharsU m).take 12 ∧
    mac2int (int2mac m) = some (m / 16) := by
  have hp48 : (0 : Nat) < 2 ^ 48 := by norm_num
  have hm0 : m ≠ 0 := by omega
  have hpow12 : (16 : Nat) ^ 12 = 2 ^ 48 := by norm_num
  have hpow13 : (16 : Nat) ^ 13 = 2 ^ 52 := by norm_num
  have hlog : Nat.log 16 m = 12 := by
    refine Nat.log_eq_of_pow_le_of_lt_pow (by rw [hpow12]; exact h1) ?_
    rw [show (12 : Nat) + 1 = 13 from rfl, hpow13]
    exact h2
  have hlen13 : (Nat.digits 16 m).length = 13 := by
    rw [Nat.digits_len 16 m (by omega) hm0, hlog]
  have hxlen : (hexCharsU m).length = 13 := by
    rw [hexCharsU_eq m hm0, List.length_map, List.length_reverse, hlen13]
  have hpad : List.replicate (12 - (hexCharsU m).length) '0' ++ hexCharsU m = hexCharsU m := by
    rw [hxlen]
    rfl
  have hgroups : macGroups m = [(hexCharsU m).take 2, ((hexCharsU m).drop 2).take 2,
      ((hexCharsU m).drop 4).take 2, ((hexCharsU m).drop 6).take 2,
      ((hexCharsU m).drop 8).take 2, ((hexCharsU m).drop 10).take 2] := by
    unfold macGroups
    rw [hpad]
    rfl
  have hnc : ∀ g ∈ macGroups m, ∀ c ∈ g, c ≠ ':' := by
    rw [hgroups]
    intro g hg c hc
    fin_cases hg
    · exact (hexCharsU_mem m hm0 c (List.take_subset _ _ hc)).2
    · exact (hexCharsU_mem m hm0 c (List.drop_subset _ _ (List.take_subset _ _ hc))).2
    · exact (hexCharsU_mem m hm0 c (List.drop_subset _ _ (List.take_subset _ _ hc))).2
    · exact (hexCharsU_mem m hm0 c (List.drop_subset _ _ (List.take_subset _ _ hc))).2
    · exact (hexCharsU_mem m hm0 c (List.drop_subset _ _ (List.take_subset _ _ hc))).2
    · exact (hexCharsU_mem m hm0 c (List.drop_subset _ _ (List.take_subset _ _ hc))).2
  have hfilter : (int2mac m).toList.filter (fun c => c ≠ ':') = (hexCharsU m).take 12 := by
    rw [show (int2mac m).toList = joinColon (macGroups m) from rfl,
      filter_joinColon (macGroups m) hnc, hgroups]
    rw [show ([(hexCharsU m).take 2, ((hexCharsU m).drop 2).take 2,
        ((hexCharsU m).drop 4).take 2, ((hexCharsU m).drop 6).take 2,
        ((hexCharsU m).drop 8).take 2, ((hexCharsU m).drop 10).take 2]).flatten
      = (hexCharsU m).take 2 ++ (((hexCharsU m).drop 2).take 2 ++ (((hexCharsU m).drop 4).take 2
        ++ (((hexCharsU m).drop 6).take 2 ++ (((hexCharsU m).drop 8).take 2
        ++ (((hexCharsU m).drop 10).take 2 ++ []))))) from rfl]
    exact (take_twelve_slices (hexCharsU m)).symm
  have htail : Nat.digits 16 m = m % 16 :: Nat.digits 16 (m / 16) :=
    Nat.digits_def' (by omega) (by omega)
  have htake : (hexCharsU m).take 12
      = ((Nat.digits 16 (m / 16)).reverse).map (fun d => (Nat.digitChar d).toUpper) := by
    rw [hexCharsU_eq m hm0, ← List.map_take, List.take_reverse, hlen13,
      show (13 : Nat) - 12 = 1 from rfl, htail]
    rfl
  have hlow : (16 : Nat) ^ 11 ≤ m / 16 := by
    rw [Nat.le_div_iff_mul_le (by omega : 0 < 16)]
    calc 16 ^ 11 * 16 = 16 ^ 12 := by ring
    _ ≤ m := by rw [hpow12]; exact h1
  have hhigh : m / 16 < 16 ^ 12 := by
    rw [Nat.div_lt_iff_lt_mul (by omega : 0 < 16)]
    calc m < 2 ^ 52 := h2
    _ = 16 ^ 12 * 16 := by norm_num
  have hq0 : m / 16 ≠ 0 := by
    have : (0 : Nat) < 16 ^ 11 := by norm_num
    omega
  have hlen12 : (Nat.digits 16 (m / 16)).length = 12 := by
    rw [Nat.digits_len 16 (m / 16) (by omega) hq0,
      Nat.log_eq_of_pow_le_of_lt_pow hlow (by rw [show (11 : Nat) + 1 = 12 from rfl]; exact hhigh)]
  have hvalue : mac2int (int2mac m) = some (m / 16) := by
    unfold mac2int
    rw [hfilter, htake]
    unfold pyIntHex
    rw [if_pos ?hcond]
    case hcond =>
      have hlm : (((Nat.digits 16 (m / 16)).reverse).map
          (fun d => (Nat.digitChar d).toUpper)).length = 12 := by
        rw [List.length_map, List.length_reverse, hlen12]
      have hne : (((Nat.digits 16 (m / 16)).reverse).map
          (fun d => (Nat.digitChar d).toUpper)) ≠ [] := by
        intro h
        rw [h] at hlm
        simp at hlm
      have hall : ∀ c ∈ ((Nat.digits 16 (m / 16)).reverse).map
          (fun d => (Nat.digitChar d).toUpper), isHexAscii c = true := by
        intro c hc
        obtain ⟨d, hd, rfl⟩ := List.mem_map.mp hc
        exact upHexDigit_isHex d (Nat.digits_lt_base (by omega) (List.mem_reverse.mp hd))
      simp only [Bool.and_eq_true, Bool.not_eq_true']
      constructor
      · rw [List.isEmpty_eq_false]
        exact hne
      · rw [List.all_eq_true]
        exact hall
    rw [foldl_map_digits 16 hexVal (fun d => (Nat.digitChar d).toUpper) upHexDigit_hexVal
      ((Nat.digits 16 (m / 16)).reverse)
      (fun d hd => Nat.digits_lt_base (by omega) (List.mem_reverse.mp hd)) 0,
      foldl_digits_eq_ofDigits, List.reverse_reverse, Nat.ofDigits_digits]
    simp
  exact ⟨hxlen, hfilter, hvalue⟩

theorem mk_toList (s : String) : String.mk s.toList = s := rfl

theorem natStr_single (d : Nat) (hd : d < 10) : (natStr d).toList = [Nat.digitChar d] := by
  by_cases h0 : d = 0
  · subst h0
    rfl
  · rw [natStr_toList d h0]
    rw [Nat.digits_def' (by omega : 1 < 10) (Nat.pos_of_ne_zero h0),
      Nat.mod_eq_of_lt hd, Nat.div_eq_of_lt hd, Nat.digits_zero]
    rfl

/-- The shape of a generated PIN whose 7-digit payload p has exactly 7
decimal digits: the zfill(8) is the identity, the first 7 characters
are str(p) and the last character is the checksum digit. -/
theorem generateE_structure (algo : String) (e : AlgoEntry) (mac p : Nat)
    (hfind : findAlgo algo = some e) (hne : algo ≠ "pinEmpty")
    (hp : e.gen mac % 10000000 = p) (h7 : 1000000 ≤ p) :
    generateE algo mac = Except.ok (natStr p ++ natStr (checksum p)) ∧
    (natStr p).toList.length = 7 := by
  have hlt : p < 10000000 := by
    rw [← hp]
    exact Nat.mod_lt _ (by omega)
  have hlen7 : (natStr p).toList.length = 7 := by
    have := natStr_length_eq p 6 (by norm_num; omega) (by norm_num; omega)
    omega
  have hlen1 : (natStr (checksum p)).toList.length = 1 := by
    rw [natStr_single (checksum p) (checksum_lt_ten p)]
    rfl
  have hlen8 : (natStr p ++ natStr (checksum p)).toList.length = 8 := by
    rw [toList_append, List.length_append, hlen7, hlen1]
  constructor
  · unfold generateE
    rw [hfind]
    simp only [hne, if_false]
    rw [hp, zfillS_of_ge 8 (natStr p ++ natStr (checksum p)) (by omega)]
  · exact hlen7

theorem fhPinC_take_four (n : Nat) (h : n < 10000) :
    String.mk ((fhPinC n).toList.take 4) = z4 n := by
  unfold fhPinC fhPinOf
  rw [toList_append, toList_append, List.append_assoc,
    show (4 : Nat) = ((z4 n).toList).length from (z4_length n h).symm, List.take_left]
  exact mk_toList (z4 n)

theorem shPinC_take_len (f : String) (j : Nat) :
    String.mk ((shPinC f j).toList.take f.toList.length) = f := by
  unfold shPinC shPinOf
  rw [toList_append, toList_append, List.append_assoc, List.take_left]
  exact mk_toList f

theorem z4_inj (m n : Nat) (h : z4 m = z4 n) : m = n := by
  have := strToNatD_z4 m
  rw [h, strToNatD_z4] at this
  omega

/-- The phase-1 PIN for candidate n is the zero-padded candidate, then
"000", then the checksum digit of n * 1000 (int(f_half + "000")). -/
theorem fhPinC_eq (j : Nat) : fhPinC j = z4 j ++ "000" ++ natStr (checksum (j * 1000)) := by
  unfold fhPinC fhPinOf
  rw [strToNatD_append, strToNatD_z4, show ("000" : String).toList.length = 3 from rfl,
    show strToNatD "000" = 0 from rfl]
  norm_num

/-- The phase-2 PIN for first half f and candidate j is f, the
zero-padded j, then the checksum digit of int(f + s_half). -/
theorem shPinC_eq (f : String) (j : Nat) (hj : j < 1000) :
    shPinC f j = f ++ z3 j ++ natStr (checksum (strToNatD f * 1000 + j)) := by
  unfold shPinC shPinOf
  rw [strToNatD_append, z3_length j hj, strToNatD_z3]
  norm_num

/-! ### Claim theorems -/

/-- C1: for every integer p with exactly 7 decimal digits, generate
applied to a registered non-Empty algorithm whose raw value reduces to p
yields an 8-character string; the first 7 characters parse back to p,
the 8th character is the checksum digit of p, and the code's checksum
agrees with the claimed accumulation (3 times each units digit plus each
tens digit over the digit pairs, then (10 - sum mod 10) mod 10). -/
theorem c1_generate_pin_checksum (algo : String) (e : AlgoEntry) (mac p : Nat)
    (hfind : findAlgo algo = some e) (hne : algo ≠ "pinEmpty")
    (hp : e.gen mac % 10000000 = p) (h7 : 1000000 ≤ p) :
    ∃ s : String,
      generateE algo mac = Except.ok s ∧
      generate algo mac = some s ∧
      s.toList.length = 8 ∧
      strToNatD (String.mk (s.toList.take 7)) = p ∧
      s.toList.drop 7 = [Nat.digitChar (checksum p)] ∧
      checksum p = wpsChecksumSpec p := by
  have hlt : p < 10000000 := by
    rw [← hp]
    exact Nat.mod_lt _ (by omega)
  obtain ⟨hgen, hlen7⟩ := generateE_structure algo e mac p hfind hne hp h7
  refine ⟨natStr p ++ natStr (checksum p), hgen, ?_, ?_, ?_, ?_, checksum_eq_spec p hlt⟩
  · unfold generate
    rw [hgen]
    rfl
  · rw [toList_append, List.length_append, hlen7,
      natStr_single (checksum p) (checksum_lt_ten p)]
    rfl
  · rw [toList_append, show (7 : Nat) = ((natStr p).toList).length from hlen7.symm,
      List.take_left, mk_toList, strToNatD_natStr]
  · rw [toList_append, show (7 : Nat) = ((natStr p).toList).length from hlen7.symm,
      List.drop_left, natStr_single (checksum p) (checksum_lt_ten p)]

/-- Witness for C1 at the 24-bit algorithm and MAC integer 0xFFFFFF,
whose raw value 16777215 reduces to the 7-digit payload 6777215. -/
theorem c1_generate_pin_checksum_witness :
    ∃ s : String,
      generateE "pin24" 16777215 = Except.ok s ∧
      generate "pin24" 16777215 = some s ∧
      s.toList.length = 8 ∧
      strToNatD (String.mk (s.toList.take 7)) = 6777215 ∧
      s.toList.drop 7 = [Nat.digitChar (checksum 6777215)] ∧
      checksum 6777215 = wpsChecksumSpec 6777215 :=
  c1_generate_pin_checksum "pin24" ⟨"24-bit PIN", AlgoMode.mac, pin24⟩ 16777215 6777215
    rfl (by decide) (by decide) (by decide)

/-- C7: generate on an algorithm id absent from the registry fails with
the UnknownAlgorithm error in the try body (the ValueError raised for an
invalid algorithm), so the caller of generate observes None instead of a
PIN string, for every MAC. -/
theorem c7_unknown_algorithm (algo : String) (mac : Nat)
    (hfind : findAlgo algo = none) :
    generateE algo mac = Except.error GenError.unknownAlgorithm ∧
    generate algo mac = none := by
  constructor
  · unfold generateE
    rw [hfind]
  · unfold generate generateE
    rw [hfind]
    rfl

/-- Witness for C7 at an unregistered id. -/
theorem c7_unknown_algorithm_witness :
    generateE "pinFoo" 0 = Except.error GenError.unknownAlgorithm ∧
    generate "pinFoo" 0 = none :=
  c7_unknown_algorithm "pinFoo" 0 rfl

/-- C6 (code bug): a well-formed MAC written with '-' or '.' delimiters
passes the validation of the normalized string, but _mac2int is applied
to the RAW input, where int(..., 16) chokes on the remaining '-' or '.'
characters: construction fails with the int conversion error instead of
succeeding.  Only the ':' form parses. -/
theorem c6_delimiter_macs_crash :
    validMacFormat (normalizeMac "00-11-22-33-44-55").toList = true ∧
    netAddrOfString "00-11-22-33-44-55" = Except.error AddrError.intConversionError ∧
    validMacFormat (normalizeMac "00.11.22.33.44.55").toList = true ∧
    netAddrOfString "00.11.22.33.44.55" = Except.error AddrError.intConversionError ∧
    netAddrOfString "00:11:22:33:44:55"
      = Except.ok { integer := 0x001122334455, string := "00:11:22:33:44:55" } :=
  ⟨rfl, rfl, rfl, rfl, rfl⟩

/-- C10: for 2^48 ≤ m < 2^52 (13 hex digits, reachable through the MAC+1
variant at the 48-bit boundary), the NetworkAddress built from integer m
keeps integer m but renders a string holding only the top 12 of the 13
hex digits, so parsing the string back with _mac2int yields m / 16: the
two representations are desynchronized. -/
theorem c10_int2mac_truncates_overflow (m : Nat) (h1 : 2 ^ 48 ≤ m) (h2 : m < 2 ^ 52) :
    (netAddrOfInt m).integer = m ∧
    (hexCharsU m).length = 13 ∧
    ((netAddrOfInt m).string).toList.filter (fun c => c ≠ ':') = (hexCharsU m).take 12 ∧
    mac2int ((netAddrOfInt m).string) = some (m / 16) ∧
    m / 16 ≠ m := by
  obtain ⟨ha, hb, hc⟩ := int2mac_top_twelve m h1 h2
  refine ⟨rfl, ha, hb, hc, ?_⟩
  have hp : (0 : Nat) < 2 ^ 48 := by norm_num
  have : m / 16 < m := Nat.div_lt_self (by omega) (by omega)
  omega

/-- Witness for C10 at m = 2^48, that is 0xFFFFFFFFFFFF + 1, the first
value reached by the MAC+1 variant past the 48-bit boundary. -/
theorem c10_int2mac_truncates_overflow_witness :
    2 ^ 48 ≤ 281474976710656 ∧ 281474976710656 < 2 ^ 52 ∧
    mac2int ((netAddrOfInt 281474976710656).string) = some (281474976710656 / 16) ∧
    281474976710656 / 16 ≠ 281474976710656 := by
  refine ⟨by norm_num, by norm_num, ?_, ?_⟩
  · exact (c10_int2mac_truncates_overflow 281474976710656 (by norm_num) (by norm_num)).2.2.2.1
  · exact (c10_int2mac_truncates_overflow 281474976710656 (by norm_num) (by norm_num)).2.2.2.2

/-- C3 counterexample: feeding the classifier "Received M5" then
"Received WSC_NACK" leaves status WscNack but firstHalfValid() is FALSE,
because receiving M5 sets lastMessageNumber to 5 and the predicate
requires a value strictly greater than 5; the claim asserts true. -/
theorem c3_m5_nack_first_half_not_valid :
    (wpsConnectionRun "wlan0" ["WPS: Received M5", "WPS: Received WSC_NACK"]).cs.status
      = "WSC_NACK" ∧
    isFirstHalfValid
      (wpsConnectionRun "wlan0" ["WPS: Received M5", "WPS: Received WSC_NACK"]).cs = false := by
  decide

/-- C3 amended: the trace "Received M5" then "Received WSC_NACK" leaves
status WscNack with lastMessageNumber 5 and firstHalfValid() false;
receiving M5 only reports validity to the user, the predicate becomes
true only from message number 6 on (for instance once "Building Message
M6" follows M5). -/
theorem c3_m5_reports_but_does_not_mark_validity :
    (wpsConnectionRun "wlan0" ["WPS: Received M5", "WPS: Received WSC_NACK"]).cs.status
      = "WSC_NACK" ∧
    (wpsConnectionRun "wlan0" ["WPS: Received M5", "WPS: Received WSC_NACK"]).cs.last_m_message
      = 5 ∧
    isFirstHalfValid
      (wpsConnectionRun "wlan0" ["WPS: Received M5", "WPS: Received WSC_NACK"]).cs = false ∧
    (wpsConnectionRun "wlan0"
      ["WPS: Received M5", "WPS: Building Message M6", "WPS: Received WSC_NACK"]).cs.status
      = "WSC_NACK" ∧
    isFirstHalfValid
      (wpsConnectionRun "wlan0"
        ["WPS: Received M5", "WPS: Building Message M6", "WPS: Received WSC_NACK"]).cs
      = true := by
  decide

/-- C4 counterexample: an accumulator state whose six fields all hold
the two-character payload "FF" (1 byte, not the mandated 16/192/192/32/
32/32) makes got_all() return true, refuting the claimed equivalence
with the mandated byte lengths. -/
theorem c4_gotall_true_on_wrong_lengths :
    gotAll { pke := "FF", pkr := "FF", e_hash1 := "FF", e_hash2 := "FF",
             authkey := "FF", e_nonce := "FF" } = true ∧
    decodesToBytes "FF" 16 = false ∧ decodesToBytes "FF" 192 = false ∧
    decodesToBytes "FF" 32 = false := by
  decide

/-- C4 amended: got_all() is true exactly when all six fields are
non-empty — lengths are not consulted.  Lengths are enforced only by the
assert at collection time, which aborts the handler (the
ProtocolAssertionViolation), but the mismatched payload has already been
stored in the field by then, as the concrete wrong-length hexdump line
shows: the handler returns False yet e_nonce holds "FF". -/
theorem c4_gotall_iff_nonempty :
    (∀ px : PixieData, gotAll px = true ↔
      (px.pke ≠ "" ∧ px.pkr ≠ "" ∧ px.e_nonce ≠ "" ∧ px.authkey ≠ "" ∧
       px.e_hash1 ≠ "" ∧ px.e_hash2 ≠ "")) ∧
    handleLine "wlan0" CompState.init "WPS: Enrollee Nonce - hexdump(len=1): ff"
      = (false, { cs := ConnStat.init, px := { PixieData.init with e_nonce := "FF" } }) := by
  constructor
  · intro px
    unfold gotAll
    simp [and_assoc]
  · decide

/-- Composing smart_bruteforce from a 4-character mask: phase 1 finds a
first half without GOT_PSK, so phase 2 is entered at second-half "001"
with the connection status, mask and attempt counter carried over. -/
theorem smart_compose (oracle : Nat → String → ConnStat) (fuel : Nat) (mask : String)
    (h4 : mask.toList.length = 4) (o1 : Phase1Out)
    (h1 : firstHalfLoop oracle fuel mask mask ConnStat.init 0 [] [] = some o1)
    (fh : String) (hres : o1.result = some fh) (hst : o1.cs.status ≠ "GOT_PSK")
    (o2 : Phase2Out)
    (h2 : secondHalfLoop oracle fuel fh "001" o1.mask o1.cs o1.nextIdx [] [] = some o2) :
    smartBruteforce oracle fuel mask
      = some { p1 := some o1, phase2Start := some (fh, "001"), p2 := some o2 } := by
  unfold smartBruteforce
  rw [if_pos h4, h1]
  simp only []
  rw [hres]
  simp only []
  rw [if_pos hst, h2]

/-- The simulated access point of the testable property behind C2:
first-half validity (message number 6) is reported exactly when the
submitted PIN starts with "1234"; every other attempt ends in a plain
wrong-PIN NACK. -/
def oc2 : String → ConnStat :=
  fun pin =>
    if String.mk (pin.toList.take 4) = "1234"
    then { status := "WSC_NACK", last_m_message := 6, essid := "", wpa_psk := "" }
    else { status := "WSC_NACK", last_m_message := 0, essid := "", wpa_psk := "" }

theorem oc2_at (j : Nat) (hj : j < 10000) :
    oc2 (fhPinC j) = (if j = 1234
      then { status := "WSC_NACK", last_m_message := 6, essid := "", wpa_psk := "" }
      else { status := "WSC_NACK", last_m_message := 0, essid := "", wpa_psk := "" }) := by
  unfold oc2
  rw [fhPinC_take_four j hj]
  by_cases h : j = 1234
  · subst h
    rw [if_pos (by decide), if_pos rfl]
  · rw [if_neg (fun he => h (z4_inj j 1234 (by rw [he]; decide))), if_neg h]

theorem oc2_p2 (j : Nat) : oc2 (shPinC "1234" j)
    = { status := "WSC_NACK", last_m_message := 6, essid := "", wpa_psk := "" } := by
  unfold oc2
  rw [show (4 : Nat) = ("1234" : String).toList.length from rfl, shPinC_take_len, if_pos rfl]

set_option maxRecDepth 8192 in
/-- C2: against the simulated channel that reports first-half validity
exactly at candidate "1234", smart_bruteforce from mask "0000" performs
exactly 1235 attempts, the candidates 0000..1234 in increasing order,
each submitted as first-half + "000" + checksum(first-half * 1000), and
then enters phase 2 at second-half "001". -/
theorem c2_first_half_walk_until_1234 :
    ∃ (o1 : Phase1Out) (o2 : Phase2Out),
      smartBruteforce (fun _ pin => oc2 pin) 2500 "0000"
        = some { p1 := some o1, phase2Start := some ("1234", "001"), p2 := some o2 } ∧
      o1.result = some "1234" ∧
      o1.attempts = (List.range' 0 1235).map
        (fun j => (z4 j, z4 j ++ "000" ++ natStr (checksum (j * 1000)))) ∧
      o1.attempts.length = 1235 ∧
      o1.nextIdx = 1235 := by
  have hclean : ∀ m, m < 1234 →
      (oc2 (fhPinC m)).last_m_message ≤ 5 ∧ (oc2 (fhPinC m)).status ≠ "WPS_FAIL" := by
    intro m hm
    rw [oc2_at m (by omega), if_neg (by omega)]
    exact ⟨by decide, by decide⟩
  have hvalid : 5 < (oc2 (fhPinC 1234)).last_m_message := by
    rw [oc2_at 1234 (by omega), if_pos rfl]
    decide
  have hcs : oc2 (fhPinC 1234)
      = { status := "WSC_NACK", last_m_message := 6, essid := "", wpa_psk := "" } := by
    rw [oc2_at 1234 (by omega), if_pos rfl]
  have h1 := firstHalf_run_success oc2 1234 (by omega) hclean hvalid 2500 0 (by omega)
    (by omega) (z4 0) ConnStat.init 0 [] []
  rw [if_neg (by omega : ¬ (0 = 1234)), hcs] at h1
  have hz1234 : z4 1234 = "1234" := by decide
  rw [hz1234] at h1
  simp only [List.nil_append, Nat.zero_add, Nat.add_zero] at h1
  rw [show (1234 - 0 : Nat) = 1234 from rfl] at h1
  have hcleanp2 : ∀ m, m < 1000 →
      (oc2 (shPinC "1234" m)).last_m_message ≤ 6 ∧
      (oc2 (shPinC "1234" m)).status ≠ "WPS_FAIL" := by
    intro m hm
    rw [oc2_p2 m]
    exact ⟨by decide, by decide⟩
  have h2 := secondHalf_run_exhaust oc2 "1234" hcleanp2 2500 1 (by omega) (by omega)
    "1234" { status := "WSC_NACK", last_m_message := 6, essid := "", wpa_psk := "" }
    1235 [] []
  rw [show z3 1 = "001" from by decide] at h2
  have h0000 : ("0000" : String) = z4 0 := by decide
  have h1f : firstHalfLoop (fun _ pin => oc2 pin) 2500 "0000" "0000" ConnStat.init 0 [] []
      = some { result := some "1234",
               cs := { status := "WSC_NACK", last_m_message := 6, essid := "", wpa_psk := "" },
               mask := "1234",
               attempts := List.map (fun j => (z4 j, fhPinC j)) (List.range' 0 1235),
               maskLog := List.map z4 (List.range' 1 1234), nextIdx := 1235 } := by
    rw [h0000]
    exact h1
  rw [if_neg (by omega : ¬ (1 = 1000)), if_neg (by omega : ¬ (1 = 1000))] at h2
  simp only [List.nil_append] at h2
  have h2f : secondHalfLoop (fun _ pin => oc2 pin) 2500 "1234" "001" "1234"
      { status := "WSC_NACK", last_m_message := 6, essid := "", wpa_psk := "" } 1235 [] []
      = some { result := none, cs := oc2 (shPinC "1234" 999), mask := "1234" ++ z3 1000,
               attempts := List.map (fun j => (z3 j, shPinC "1234" j)) (List.range' 1 (1000 - 1)),
               maskLog := List.map (fun j => "1234" ++ z3 j) (List.range' (1 + 1) (1000 - 1)),
               nextIdx := 1235 + (1000 - 1) } := h2
  have hsm := smart_compose (fun _ pin => oc2 pin) 2500 "0000" (by decide)
    { result := some "1234",
      cs := { status := "WSC_NACK", last_m_message := 6, essid := "", wpa_psk := "" },
      mask := "1234",
      attempts := List.map (fun j => (z4 j, fhPinC j)) (List.range' 0 1235),
      maskLog := List.map z4 (List.range' 1 1234), nextIdx := 1235 }
    h1f "1234" rfl (by decide)
    { result := none, cs := oc2 (shPinC "1234" 999), mask := "1234" ++ z3 1000,
      attempts := List.map (fun j => (z3 j, shPinC "1234" j)) (List.range' 1 (1000 - 1)),
      maskLog := List.map (fun j => "1234" ++ z3 j) (List.range' (1 + 1) (1000 - 1)),
      nextIdx := 1235 + (1000 - 1) } h2f
  exact ⟨_, _, hsm, rfl, List.map_congr_left (fun j hj => by rw [fhPinC_eq j]),
    by rw [List.length_map, List.length_range'], rfl⟩

/-- A stateful simulated channel: the first two attempts end in
WPS_FAIL, every later attempt reports first-half validity. -/
def oc5 : Nat → String → ConnStat := fun idx _ =>
  if idx < 2 then { status := "WPS_FAIL", last_m_message := 0, essid := "", wpa_psk := "" }
  else { status := "WSC_NACK", last_m_message := 6, essid := "", wpa_psk := "" }

/-- C5 counterexample: when the attempts on candidate "0000" end in
WPS_FAIL twice in a row, phase 1 runs a THIRD attempt on the same
candidate instead of advancing after the claimed single retry: the
attempt log holds three entries for "0000". -/
theorem c5_three_attempts_on_same_candidate :
    firstHalfLoop oc5 10 "0000" "0000" ConnStat.init 0 [] []
      = some { result := some "0000",
               cs := { status := "WSC_NACK", last_m_message := 6, essid := "", wpa_psk := "" },
               mask := "0000",
               attempts := [("0000", "00000000"), ("0000", "00000000"), ("0000", "00000000")],
               maskLog := [], nextIdx := 3 } := by
  decide

/-- C5 amended: in both phases an attempt that ends in WPS_FAIL (without
the success signal) makes the engine re-attempt the SAME candidate, with
no bound on the number of retries; the candidate changes only after a
non-WPS_FAIL attempt. -/
theorem c5_wpsfail_retry_unbounded :
    (∀ (oracle : Nat → String → ConnStat) (fuel : Nat) (f mask : String) (cs0 : ConnStat)
      (idx : Nat) (log : List (String × String)) (ml : List String),
      strToNatD f < 10000 →
      (oracle idx (fhPinOf f)).last_m_message ≤ 5 →
      (oracle idx (fhPinOf f)).status = "WPS_FAIL" →
      firstHalfLoop oracle (fuel + 1) f mask cs0 idx log ml
        = firstHalfLoop oracle fuel f mask (oracle idx (fhPinOf f)) (idx + 1)
            (log ++ [(f, fhPinOf f)]) ml) ∧
    (∀ (oracle : Nat → String → ConnStat) (fuel : Nat) (f s mask : String) (cs0 : ConnStat)
      (idx : Nat) (log : List (String × String)) (ml : List String),
      strToNatD s < 1000 →
      (oracle idx (shPinOf f s)).last_m_message ≤ 6 →
      (oracle idx (shPinOf f s)).status = "WPS_FAIL" →
      secondHalfLoop oracle (fuel + 1) f s mask cs0 idx log ml
        = secondHalfLoop oracle fuel f s mask (oracle idx (shPinOf f s)) (idx + 1)
            (log ++ [(s, shPinOf f s)]) ml) := by
  constructor
  · intro oracle fuel f mask cs0 idx log ml hg hlm hst
    rw [firstHalfLoop_eq, if_pos hg, if_neg (by omega), if_pos hst]
  · intro oracle fuel f s mask cs0 idx log ml hg hlm hst
    rw [secondHalfLoop_eq, if_pos hg, if_neg (by omega), if_pos hst]

/-- Witness for C5: concrete WPS_FAIL retries in both phases. -/
theorem c5_wpsfail_retry_unbounded_witness :
    firstHalfLoop oc5 6 "0000" "0000" ConnStat.init 0 [] []
      = firstHalfLoop oc5 5 "0000" "0000" (oc5 0 (fhPinOf "0000")) 1
          [("0000", fhPinOf "0000")] [] ∧
    secondHalfLoop oc5 6 "1234" "001" "1234001" ConnStat.init 0 [] []
      = secondHalfLoop oc5 5 "1234" "001" "1234001" (oc5 0 (shPinOf "1234" "001")) 1
          [("001", shPinOf "1234" "001")] [] :=
  ⟨c5_wpsfail_retry_unbounded.1 oc5 5 "0000" "0000" ConnStat.init 0 [] []
      (by decide) (by decide) (by decide),
   c5_wpsfail_retry_unbounded.2 oc5 5 "1234" "001" "1234001" ConnStat.init 0 [] []
      (by decide) (by decide) (by decide)⟩

theorem getD_map_range' (f : Nat → String) (s len i : Nat) (h : i < len) :
    ((List.range' s len).map f).getD i "" = f (s + i) := by
  have hlt : i < ((List.range' s len).map f).length := by
    rw [List.length_map, List.length_range']
    exact h
  rw [List.getD_eq_getElem _ _ hlt, List.getElem_map, List.getElem_range']
  congr 1
  omega

/-- C8: in a clean phase-1 run that succeeds at candidate k, the masks
passed to registerAttempt starting from mask "0000" are exactly
"0001".."k": after N completed attempts the stored mask is the
zero-padded N, and a run resumed from that mask walks candidates
N..k — the full run's attempts are exactly the first N candidates
followed by the resumed run's attempts, with nothing skipped or
repeated. -/
theorem c8_mask_is_next_untried (O : String → ConnStat) (k N : Nat)
    (hN : N ≤ k) (hk : k < 10000)
    (hclean : ∀ m, m < k →
      (O (fhPinC m)).last_m_message ≤ 5 ∧ (O (fhPinC m)).status ≠ "WPS_FAIL")
    (hvalid : 5 < (O (fhPinC k)).last_m_message) :
    ∃ full resumed : Phase1Out,
      firstHalfLoop (fun _ pin => O pin) (k + 2) (z4 0) (z4 0) ConnStat.init 0 [] []
        = some full ∧
      full.attempts = (List.range' 0 (k + 1)).map (fun j => (z4 j, fhPinC j)) ∧
      full.maskLog = (List.range' 1 k).map z4 ∧
      (∀ n, 1 ≤ n → n ≤ k → full.maskLog.getD (n - 1) "" = z4 n) ∧
      firstHalfLoop (fun _ pin => O pin) (k + 2) (z4 N) (z4 N) ConnStat.init 0 [] []
        = some resumed ∧
      resumed.attempts = (List.range' N (k + 1 - N)).map (fun j => (z4 j, fhPinC j)) ∧
      full.attempts
        = (List.range' 0 N).map (fun j => (z4 j, fhPinC j)) ++ resumed.attempts := by
  have hfull := firstHalf_run_success O k hk hclean hvalid (k + 2) 0 (by omega) (by omega)
    (z4 0) ConnStat.init 0 [] []
  have hres := firstHalf_run_success O k hk hclean hvalid (k + 2) N hN (by omega)
    (z4 N) ConnStat.init 0 [] []
  refine ⟨_, _, hfull, ?_, ?_, ?_, hres, ?_, ?_⟩
  · simp only [List.nil_append, Nat.sub_zero]
  · simp only [List.nil_append, Nat.zero_add, Nat.sub_zero]
  · intro n h1n h2n
    simp only [List.nil_append, Nat.zero_add, Nat.sub_zero]
    rw [getD_map_range' z4 1 k (n - 1) (by omega)]
    congr 1
    omega
  · simp only [List.nil_append]
  · simp only [List.nil_append, Nat.sub_zero]
    have hr : List.range' 0 N ++ List.range' N (k + 1 - N) = List.range' 0 (k + 1) := by
      have h := List.range'_append 0 N (k + 1 - N) 1
      rw [show 0 + 1 * N = N from by omega, show (k + 1 - N) + N = k + 1 from by omega] at h
      exact h
    rw [← hr, List.map_append]

/-- The simulated channel for the C8 witness: first-half validity
exactly at candidate "0005". -/
def oc8 : String → ConnStat :=
  fun pin =>
    if String.mk (pin.toList.take 4) = "0005"
    then { status := "WSC_NACK", last_m_message := 6, essid := "", wpa_psk := "" }
    else { status := "WSC_NACK", last_m_message := 0, essid := "", wpa_psk := "" }

/-- Witness for C8 with success at candidate 5, interrupted after 3
completed attempts. -/
theorem c8_mask_is_next_untried_witness :
    3 ≤ 5 ∧ 5 < 10000 ∧
    ∃ full resumed : Phase1Out,
      firstHalfLoop (fun _ pin => oc8 pin) 7 (z4 0) (z4 0) ConnStat.init 0 [] []
        = some full ∧
      full.attempts = (List.range' 0 6).map (fun j => (z4 j, fhPinC j)) ∧
      full.maskLog = (List.range' 1 5).map z4 ∧
      (∀ n, 1 ≤ n → n ≤ 5 → full.maskLog.getD (n - 1) "" = z4 n) ∧
      firstHalfLoop (fun _ pin => oc8 pin) 7 (z4 3) (z4 3) ConnStat.init 0 [] []
        = some resumed ∧
      resumed.attempts = (List.range' 3 3).map (fun j => (z4 j, fhPinC j)) ∧
      full.attempts = (List.range' 0 3).map (fun j => (z4 j, fhPinC j)) ++ resumed.attempts :=
  ⟨by omega, by omega,
    c8_mask_is_next_untried oc8 5 3 (by omega) (by omega) (by decide) (by decide)⟩

/-- A simulated channel whose every attempt ends with status GOT_PSK but
message number 0 (the classifier sets GOT_PSK on a Network Key hexdump
without touching the message counter). -/
def ogp : String → ConnStat :=
  fun _ => { status := "GOT_PSK", last_m_message := 0, essid := "", wpa_psk := "" }

/-- C9 counterexample: every attempt ends with status GotPsk, yet phase
2 never stops with success — it advances through all 999 candidates and
exhausts with failure, because the loop tests only lastMessageNumber > 6
and never the GotPsk status. -/
theorem c9_gotpsk_alone_does_not_stop :
    (ogp (shPinC "1234" 1)).status = "GOT_PSK" ∧
    ∃ o2 : Phase2Out,
      secondHalfLoop (fun _ pin => ogp pin) 1200 "1234" "001" "1234" ConnStat.init 0 [] []
        = some o2 ∧
      o2.result = none ∧ o2.attempts.length = 999 := by
  refine ⟨rfl, ?_⟩
  have hclean : ∀ m, m < 1000 →
      (ogp (shPinC "1234" m)).last_m_message ≤ 6 ∧
      (ogp (shPinC "1234" m)).status ≠ "WPS_FAIL" :=
    fun m _ => ⟨by simp [ogp], by simp [ogp]⟩
  have h2 := secondHalf_run_exhaust ogp "1234" hclean 1200 1 (by omega) (by omega)
    "1234" ConnStat.init 0 [] []
  rw [show z3 1 = "001" from by decide] at h2
  exact ⟨_, h2, rfl, by simp [List.length_map, List.length_range']⟩

/-- C9 amended: phase 2 stops with success exactly when an attempt ends
with lastMessageNumber > 6 — regardless of the status, GotPsk included
on both sides: an attempt with message number > 6 stops the search even
with a WpsFail status, and an attempt with message number ≤ 6 and a
non-WpsFail status (GotPsk included) advances to the next candidate, up
to exhaustion at 999. -/
theorem c9_phase2_success_iff_message_gt_six :
    (∀ (oracle : Nat → String → ConnStat) (fuel : Nat) (f s mask : String) (cs0 : ConnStat)
      (idx : Nat) (log : List (String × String)) (ml : List String),
      strToNatD s < 1000 →
      6 < (oracle idx (shPinOf f s)).last_m_message →
      secondHalfLoop oracle (fuel + 1) f s mask cs0 idx log ml
        = some { result := some (shPinOf f s), cs := oracle idx (shPinOf f s), mask := mask,
                 attempts := log ++ [(s, shPinOf f s)], maskLog := ml, nextIdx := idx + 1 }) ∧
    (∀ (oracle : Nat → String → ConnStat) (fuel : Nat) (f s mask : String) (cs0 : ConnStat)
      (idx : Nat) (log : List (String × String)) (ml : List String),
      strToNatD s < 1000 →
      (oracle idx (shPinOf f s)).last_m_message ≤ 6 →
      (oracle idx (shPinOf f s)).status ≠ "WPS_FAIL" →
      secondHalfLoop oracle (fuel + 1) f s mask cs0 idx log ml
        = secondHalfLoop oracle fuel f (zfillS 3 (natStr (strToNatD s + 1)))
            (f ++ zfillS 3 (natStr (strToNatD s + 1))) (oracle idx (shPinOf f s)) (idx + 1)
            (log ++ [(s, shPinOf f s)]) (ml ++ [f ++ zfillS 3 (natStr (strToNatD s + 1))])) ∧
    (∀ (O : String → ConnStat) (f mask0 : String) (cs0 : ConnStat) (idx0 fuel : Nat),
      999 < fuel →
      (∀ m, m < 1000 →
        (O (shPinC f m)).last_m_message ≤ 6 ∧ (O (shPinC f m)).status ≠ "WPS_FAIL") →
      secondHalfLoop (fun _ pin => O pin) fuel f "001" mask0 cs0 idx0 [] []
        = some { result := none, cs := O (shPinC f 999), mask := f ++ z3 1000,
                 attempts := (List.range' 1 999).map (fun j => (z3 j, shPinC f j)),
                 maskLog := (List.range' 2 999).map (fun j => f ++ z3 j),
                 nextIdx := idx0 + 999 }) := by
  refine ⟨?_, ?_, ?_⟩
  · intro oracle fuel f s mask cs0 idx log ml hg hlm
    rw [secondHalfLoop_eq, if_pos hg, if_pos hlm]
  · intro oracle fuel f s mask cs0 idx log ml hg hlm hst
    rw [secondHalfLoop_eq, if_pos hg, if_neg (by omega), if_neg hst]
  · intro O f mask0 cs0 idx0 fuel hfuel hclean
    have h2 := secondHalf_run_exhaust O f hclean fuel 1 (by omega) (by omega)
      mask0 cs0 idx0 [] []
    rw [show z3 1 = "001" from by decide] at h2
    rw [if_neg (by omega : ¬ (1 = 1000)), if_neg (by omega : ¬ (1 = 1000))] at h2
    simp only [List.nil_append] at h2
    rw [show (1000 - 1 : Nat) = 999 from rfl, show (1 + 1 : Nat) = 2 from rfl] at h2
    exact h2

/-- Witness for C9: a success stop on message number 7 despite a WpsFail
status, an advance on a GotPsk status with message number 0, and a full
exhaustion run under the constant GotPsk channel. -/
theorem c9_phase2_success_iff_message_gt_six_witness :
    secondHalfLoop (fun _ _ => ConnStat.mk "WPS_FAIL" 7 "" "") 5 "1234" "500" "m0"
        ConnStat.init 9 [] []
      = some { result := some (shPinOf "1234" "500"),
               cs := ConnStat.mk "WPS_FAIL" 7 "" "", mask := "m0",
               attempts := [("500", shPinOf "1234" "500")], maskLog := [], nextIdx := 10 } ∧
    secondHalfLoop (fun _ pin => ogp pin) 5 "1234" "500" "m0" ConnStat.init 9 [] []
      = secondHalfLoop (fun _ pin => ogp pin) 4 "1234" (zfillS 3 (natStr (strToNatD "500" + 1)))
          ("1234" ++ zfillS 3 (natStr (strToNatD "500" + 1))) (ogp (shPinOf "1234" "500")) 10
          [("500", shPinOf "1234" "500")] [("1234" ++ zfillS 3 (natStr (strToNatD "500" + 1)))] ∧
    secondHalfLoop (fun _ pin => ogp pin) 1000 "9999" "001" "m0" ConnStat.init 0 [] []
      = some { result := none, cs := ogp (shPinC "9999" 999), mask := "9999" ++ z3 1000,
               attempts := (List.range' 1 999).map (fun j => (z3 j, shPinC "9999" j)),
               maskLog := (List.range' 2 999).map (fun j => "9999" ++ z3 j),
               nextIdx := 999 } := by
  refine ⟨?_, ?_, ?_⟩
  · exact c9_phase2_success_iff_message_gt_six.1 (fun _ _ => ConnStat.mk "WPS_FAIL" 7 "" "")
      4 "1234" "500" "m0" ConnStat.init 9 [] [] (by decide) (by decide)
  · exact c9_phase2_success_iff_message_gt_six.2.1 (fun _ pin => ogp pin)
      4 "1234" "500" "m0" ConnStat.init 9 [] [] (by decide) (by decide) (by decide)
  · have h := c9_phase2_success_iff_message_gt_six.2.2 ogp "9999" "m0" ConnStat.init 0 1000
      (by omega) (fun m _ => ⟨by simp [ogp], by simp [ogp]⟩)
    rw [show (0 + 999 : Nat) = 999 from rfl] at h
    exact h
